import Mathlib

/-!
Shallow embedding of the general-ledger core of the wilcox-advisors backend.

The embedding follows the source files:
* `src/routes/accounting.js` — transactional journal-entry posting
  (POST /journal-entry), reversal (DELETE /journal-entries/:id), trial
  balance, balance sheet;
* `src/unnamed/part_022` — the legacy journal-entry handler (per-line saves,
  find-or-create accounts);
* `src/unnamed/part_011` — the fixed-asset model
  (calculateDepreciation, runMonthlyDepreciation).

Money is modelled as `ℚ` (the source uses JS floats with an explicit 0.01
tolerance).  Mongo collections are lists; a Mongo session transaction is
modelled by `Except`: an aborted transaction leaves the durable state
untouched, so a handler that aborts returns `.error` and the durable state
is the unchanged input state.  Dates are (year, monthIndex, dayOffset)
triples ordered lexicographically; `monthIndex` is 0-based as in JS
`Date.getMonth()`, and January 1st of year `y` is `⟨y, 0, 0⟩`.
-/

namespace WilcoxGL

/-- Account types, `accountType` enum of `src/models/account.js`. -/
inductive AccountType where
  | asset
  | liability
  | equity
  | revenue
  | expense
deriving DecidableEq, Repr

/-- Transaction line side, the `type` enum of `src/models/transaction.js`. -/
inductive LineType where
  | debit
  | credit
deriving DecidableEq, Repr

/-- Journal-entry status enum of `src/models/journalEntry.js`. -/
inductive JEStatus where
  | draft
  | posted
  | reversed
deriving DecidableEq, Repr

/-- Calendar date: year, 0-based month index (as JS `getMonth()`), 0-based
day offset inside the month.  January 1st of year `y` is `⟨y, 0, 0⟩`. -/
structure DDate where
  year : Int
  month : Nat
  day : Nat
deriving DecidableEq, Repr

/-- Lexicographic `a ≤ b` on dates, the JS `Date` comparison. -/
def DDate.ble (a b : DDate) : Bool :=
  decide (a.year < b.year ∨ (a.year = b.year ∧
    (a.month < b.month ∨ (a.month = b.month ∧ a.day ≤ b.day))))

/-- Ledger entity (`src/models/entity.js`), reduced to the identifying
fields the accounting routes read. -/
structure Entity where
  id : Nat
  clientId : Nat
deriving DecidableEq, Repr

/-- Live ledger account, `src/models/account.js`. -/
structure Account where
  id : Nat
  clientId : Nat
  entityId : Nat
  accountNumber : String
  accountName : String
  accountType : AccountType
  isActive : Bool
  balance : ℚ
deriving DecidableEq, Repr

/-- Transaction line, `src/models/transaction.js`. -/
structure Txn where
  clientId : Nat
  entityId : Nat
  accountId : Nat
  journalEntryId : Nat
  date : DDate
  description : String
  amount : ℚ
  type : LineType
deriving DecidableEq, Repr

/-- Journal-entry header, `src/models/journalEntry.js`. -/
structure JEntry where
  id : Nat
  clientId : Nat
  entityId : Nat
  entryNumber : String
  date : DDate
  description : String
  status : JEStatus
  reversalOf : Option Nat
  reversedBy : Option Nat
  totalAmount : ℚ
  periodYear : Int
  periodMonth : Nat
deriving DecidableEq, Repr

/-- Durable store: the Mongo collections touched by the accounting routes.
`audits` counts audit-log documents; `nextId` models Mongo ObjectId
freshness for newly inserted documents. -/
structure St where
  entities : List Entity
  accounts : List Account
  entries : List JEntry
  txns : List Txn
  audits : Nat
  nextId : Nat
deriving DecidableEq, Repr

/-- One line of a posting request body (`entries[*]` of POST /journal-entry
in `src/routes/accounting.js`). -/
structure LineInput where
  accountId : Nat
  amount : ℚ
  type : LineType
  description : Option String
deriving DecidableEq, Repr

/-- Failure modes of the transactional POST /journal-entry handler. -/
inductive PostErr where
  | validationFailed
  | entityNotFound
  | unbalanced
  | accountNotFound
deriving DecidableEq, Repr

/-- Failure modes of DELETE /journal-entries/:id (the reversal handler). -/
inductive RevErr where
  | notFound
  | missingAccount
deriving DecidableEq, Repr

/-- Accounts whose balance rises with a debit
(`['Asset', 'Expense'].includes(account.accountType)`). -/
def debitPositive : AccountType → Bool
  | .asset => true
  | .expense => true
  | _ => false

/-- Signed balance delta of one line against an account of type `ty`
(accounting.js lines 610-618). -/
def lineDelta (ty : AccountType) (lt : LineType) (amt : ℚ) : ℚ :=
  if debitPositive ty then (if lt = LineType.debit then amt else -amt)
  else (if lt = LineType.credit then amt else -amt)

/-- Account lookup used by the posting loop:
`Account.findOne({_id, clientId, entityId})`. -/
def findAccount (accs : List Account) (cid eid aid : Nat) : Option Account :=
  accs.find? (fun a => decide (a.id = aid ∧ a.clientId = cid ∧ a.entityId = eid))

/-- Account lookup by id only (Mongo `findById` / populated reference). -/
def findAccountById (accs : List Account) (aid : Nat) : Option Account :=
  accs.find? (fun a => decide (a.id = aid))

/-- The `$inc: { balance: balanceChange }` update on one account. -/
def applyDelta (accs : List Account) (aid : Nat) (d : ℚ) : List Account :=
  accs.map (fun a => if a.id = aid then { a with balance := a.balance + d } else a)

/-- Left-pad a numeral with zeros, JS `String(n).padStart(w, '0')`. -/
def padNum (w : Nat) (n : Nat) : String :=
  let s := toString n
  if s.length < w then String.mk (List.replicate (w - s.length) '0') ++ s else s

/-- Entry number `${year}-${month}-${String(count + 1).padStart(5, '0')}`. -/
def entryNumberOf (year : Int) (monthIdx : Nat) (seq : Nat) : String :=
  toString year ++ "-" ++ padNum 2 (monthIdx + 1) ++ "-" ++ padNum 5 seq

/-- Sum of the `debit` line amounts of a posting request. -/
def sumDebits (lines : List LineInput) : ℚ :=
  ((lines.filter (fun l => decide (l.type = LineType.debit))).map (·.amount)).sum

/-- Sum of the `credit` line amounts of a posting request. -/
def sumCredits (lines : List LineInput) : ℚ :=
  ((lines.filter (fun l => decide (l.type = LineType.credit))).map (·.amount)).sum

/-- The transaction row built for one request line (accounting.js 589-604). -/
def mkTxn (cid eid jid : Nat) (d : DDate) (desc : String) (l : LineInput) : Txn :=
  { clientId := cid
    entityId := eid
    accountId := l.accountId
    journalEntryId := jid
    date := d
    description := l.description.getD desc
    amount := l.amount
    type := l.type }

/-- The posting loop of accounting.js 577-628: for each line, look the
account up, record the transaction row, and apply the signed balance
delta.  A missing account throws, which aborts the session. -/
def processLines (cid eid jid : Nat) (d : DDate) (desc : String) :
    List LineInput → List Account → List Txn → Option (List Account × List Txn)
  | [], accs, out => some (accs, out)
  | l :: ls, accs, out =>
    match findAccount accs cid eid l.accountId with
    | none => none
    | some a =>
      processLines cid eid jid d desc ls
        (applyDelta accs l.accountId (lineDelta a.accountType l.type l.amount))
        (out ++ [mkTxn cid eid jid d desc l])

/-- The journal-entry header document built by accounting.js 536-553. -/
def postHeader (s : St) (cid eid : Nat) (d : DDate) (desc : String)
    (lines : List LineInput) : JEntry :=
  let entryCount := (s.entries.filter (fun e => decide
    (e.clientId = cid ∧ e.entityId = eid ∧ e.periodYear = d.year ∧
      e.periodMonth = d.month + 1))).length
  { id := s.nextId
    clientId := cid
    entityId := eid
    entryNumber := entryNumberOf d.year d.month (entryCount + 1)
    date := d
    description := desc
    status := JEStatus.posted
    reversalOf := none
    reversedBy := none
    totalAmount := sumDebits lines
    periodYear := d.year
    periodMonth := d.month + 1 }

/-- POST /journal-entry of `src/routes/accounting.js` (lines 464-683).
Request validation (non-empty `entries`, strictly positive amounts) is the
express-validator middleware; entity ownership, the 0.01 balance check and
the per-line account checks follow the handler.  All writes share one
session, so every failure path leaves the durable state unchanged
(`.error`).  Attachment handling only copies file metadata into the header
and is omitted. -/
def postJournalEntry (s : St) (cid eid : Nat) (d : DDate) (desc : String)
    (lines : List LineInput) : Except PostErr St :=
  if lines.isEmpty then .error .validationFailed
  else if lines.any (fun l => decide (l.amount ≤ 0)) then .error .validationFailed
  else
    match s.entities.find? (fun e => decide (e.id = eid ∧ e.clientId = cid)) with
    | none => .error .entityNotFound
    | some _ =>
      if |sumDebits lines - sumCredits lines| > (1 : ℚ)/100 then .error .unbalanced
      else
        match processLines cid eid s.nextId d desc lines s.accounts [] with
        | none => .error .accountNotFound
        | some (accs, ts) =>
          .ok { s with
                accounts := accs
                entries := s.entries ++ [postHeader s cid eid d desc lines]
                txns := s.txns ++ ts
                audits := s.audits + 1
                nextId := s.nextId + 1 }

/-- Durable state after the handler runs: a committed session publishes the
new state, an aborted one leaves the store as it was. -/
def postResultState (s : St) (cid eid : Nat) (d : DDate) (desc : String)
    (lines : List LineInput) : St :=
  match postJournalEntry s cid eid d desc lines with
  | .ok s' => s'
  | .error _ => s

/-- Transaction rows of one journal entry:
`Transaction.find({ journalEntryId })`. -/
def txnsOf (s : St) (jid : Nat) : List Txn :=
  s.txns.filter (fun t => decide (t.journalEntryId = jid))

/-- Inverse signed delta applied by the reversal handler
(accounting.js 1071-1079). -/
def inverseDelta (ty : AccountType) (lt : LineType) (amt : ℚ) : ℚ :=
  if debitPositive ty then (if lt = LineType.debit then -amt else amt)
  else (if lt = LineType.credit then -amt else amt)

/-- The balance loop of the reversal handler (accounting.js 1066-1089): a
transaction whose account reference fails to populate is skipped. -/
def applyInverse (accs : List Account) : List Txn → List Account
  | [] => accs
  | t :: ts =>
    match findAccountById accs t.accountId with
    | none => applyInverse accs ts
    | some a =>
      applyInverse (applyDelta accs t.accountId (inverseDelta a.accountType t.type t.amount)) ts

/-- The mirrored transaction row of the reversal (accounting.js 1116-1131):
same account and amount, debit and credit swapped. -/
def mirrorTxn (cid rid : Nat) (now : DDate) (t : Txn) : Txn :=
  { clientId := cid
    entityId := t.entityId
    accountId := t.accountId
    journalEntryId := rid
    date := now
    description := "Reversal of " ++ t.description
    amount := t.amount
    type := if t.type = LineType.debit then LineType.credit else LineType.debit }

/-- The reversal header document (accounting.js 1092-1109). -/
def revHeader (je : JEntry) (cid rid : Nat) (now : DDate) : JEntry :=
  { id := rid
    clientId := cid
    entityId := je.entityId
    entryNumber := "REV-" ++ je.entryNumber
    date := now
    description := "Reversal of " ++ je.entryNumber ++ ": " ++ je.description
    status := JEStatus.posted
    reversalOf := some je.id
    reversedBy := none
    totalAmount := je.totalAmount
    periodYear := now.year
    periodMonth := now.month + 1 }

/-- Mark the original entry reversed with its back-reference
(accounting.js 1139-1148). -/
def markReversed (jeid rid : Nat) (e : JEntry) : JEntry :=
  if e.id = jeid then { e with status := JEStatus.reversed, reversedBy := some rid } else e

/-- DELETE /journal-entries/:id of `src/routes/accounting.js` (1028-1183).
Eligibility is `findOne({_id, clientId, status: { $ne: 'reversed' }})`.
In the source, a transaction whose account fails to populate is skipped by
the balance loop but then throws in the mirror loop, aborting the whole
session; the up-front `missingAccount` check reproduces that observable
behaviour.  `now` is the handler's `new Date()`. -/
def reverseJournalEntry (s : St) (cid jeid : Nat) (now : DDate) : Except RevErr St :=
  match s.entries.find? (fun e => decide
      (e.id = jeid ∧ e.clientId = cid ∧ e.status ≠ JEStatus.reversed)) with
  | none => .error .notFound
  | some je =>
    let ts := txnsOf s jeid
    if ts.any (fun t => (findAccountById s.accounts t.accountId).isNone) then
      .error .missingAccount
    else
      let rid := s.nextId
      .ok { s with
            accounts := applyInverse s.accounts ts
            entries := (s.entries.map (markReversed jeid rid)) ++ [revHeader je cid rid now]
            txns := s.txns ++ ts.map (mirrorTxn cid rid now)
            audits := s.audits + 1
            nextId := s.nextId + 1 }

/-- Stored balance of the account with id `aid` (0 when absent). -/
def balanceOf (accs : List Account) (aid : Nat) : ℚ :=
  match findAccountById accs aid with
  | some a => a.balance
  | none => 0

/-- Account type of the account with id `aid`, when present. -/
def typeAt (accs : List Account) (aid : Nat) : Option AccountType :=
  (findAccountById accs aid).map (·.accountType)

/-- Signed delta for an optional account type; a missing account
contributes nothing. -/
def oDelta : Option AccountType → LineType → ℚ → ℚ
  | none, _, _ => 0
  | some ty, lt, amt => lineDelta ty lt amt

/-- Signed contribution of a stored transaction line, keyed by the type of
the account it references. -/
def txnDelta (accs : List Account) (t : Txn) : ℚ :=
  oDelta (typeAt accs t.accountId) t.type t.amount

/-- Signed sum of the given transaction lines against account `aid`. -/
def signedTxnSum (accs : List Account) (ts : List Txn) (aid : Nat) : ℚ :=
  ((ts.filter (fun t => decide (t.accountId = aid))).map (txnDelta accs)).sum

/-- Signed sum of request lines against account `aid`, the accumulated
balance delta the posting loop applies there. -/
def linesSignedSum (accs : List Account) (lines : List LineInput) (aid : Nat) : ℚ :=
  ((lines.filter (fun l => decide (l.accountId = aid))).map
    (fun l => oDelta (typeAt accs aid) l.type l.amount)).sum

/-- Status of the journal entry a transaction line belongs to. -/
def entryStatusOf (s : St) (jid : Nat) : Option JEStatus :=
  (s.entries.find? (fun e => decide (e.id = jid))).map (·.status)

/-- The balance characterisation asserted by the spec: the signed sum of
the lines of all journal entries whose status is `posted` (so neither
draft nor reversed) against the account. -/
def claimedPostedSum (s : St) (aid : Nat) : ℚ :=
  ((s.txns.filter (fun t => decide (t.accountId = aid) &&
      decide (entryStatusOf s t.journalEntryId = some JEStatus.posted))).map
    (txnDelta s.accounts)).sum

/-- States reachable from an empty ledger (fresh accounts, no entries, no
transaction lines) by the two mutating handlers of accounting.js. -/
inductive Reach : St → Prop where
  | init (s : St) (hb : ∀ a ∈ s.accounts, a.balance = 0) (ht : s.txns = [])
      (he : s.entries = []) (hn : (s.accounts.map (·.id)).Nodup)
      (hacc : ∀ a ∈ s.accounts, a.id < s.nextId) : Reach s
  | post (s s' : St) (cid eid : Nat) (d : DDate) (desc : String)
      (lines : List LineInput) (hs : Reach s)
      (h : postJournalEntry s cid eid d desc lines = .ok s') : Reach s'
  | reverse (s s' : St) (cid jeid : Nat) (now : DDate) (hs : Reach s)
      (h : reverseJournalEntry s cid jeid now = .ok s') : Reach s'

/-- Structural data of an account: everything except the mutable balance. -/
def shapeOf (a : Account) : Nat × Nat × Nat × String × String × AccountType × Bool :=
  (a.id, a.clientId, a.entityId, a.accountNumber, a.accountName, a.accountType, a.isActive)

/-- Well-formedness of the store: Mongo ObjectIds are unique and already
allocated ids are below the freshness counter. -/
def WFSt (s : St) : Prop :=
  (s.accounts.map (·.id)).Nodup ∧
  (∀ t ∈ s.txns, t.journalEntryId < s.nextId) ∧
  (∀ e ∈ s.entries, e.id < s.nextId)

/-! ### Legacy journal-entry handler, `src/unnamed/part_022` -/

/-- Account document as used by the legacy routes (the slim
`models/account.js` variant without entity or balance fields). -/
structure LAccount where
  id : Nat
  clientId : Nat
  accountNumber : String
  accountName : String
  accountType : AccountType
  subledgerType : String
  isManual : Bool
deriving DecidableEq, Repr

/-- Legacy per-line journal-entry document (one document per line, with
`debitAccount` / `creditAccount` references). -/
structure LEntryDoc where
  clientId : Nat
  date : DDate
  description : String
  debitAccount : Option Nat
  creditAccount : Option Nat
  amount : ℚ
deriving DecidableEq, Repr

/-- Durable store of the legacy routes. -/
structure LegacySt where
  accounts : List LAccount
  jdocs : List LEntryDoc
  audits : Nat
  nextId : Nat
deriving DecidableEq, Repr

/-- One line of a legacy posting request (`entries[*]` of part_022). -/
structure LLine where
  accountNo : String
  accountTitle : String
  amount : ℚ
  isDebit : Bool
  description : Option String
deriving DecidableEq, Repr

/-- Failure modes of the legacy POST /journal-entry handler. -/
inductive LegacyErr where
  | validationFailed
  | unbalanced
deriving DecidableEq, Repr

/-- Account type inferred from the first digit of the account number
(part_022 lines 95-98). -/
def inferType (no : String) : AccountType :=
  if no.startsWith "1" then AccountType.asset
  else if no.startsWith "2" then AccountType.liability
  else if no.startsWith "3" then AccountType.equity
  else if no.startsWith "4" then AccountType.revenue
  else AccountType.expense

/-- Subledger type inferred from the account number (part_022 101-112). -/
def inferSubledger (no : String) : String :=
  if no = "2000" then "AP"
  else if no = "1110" then "AR"
  else if no.startsWith "60" then "Payroll"
  else if no.startsWith "12" then "Inventory"
  else if no.startsWith "15" then "Assets"
  else "GL"

/-- The legacy per-line loop (part_022 lines 87-160): find or create the
account by number, accumulate debit/credit totals, and save one
journal-entry document per line.  Every save is immediately durable; there
is no session. -/
def legacyProcess (cid : Nat) (d : DDate) (desc : String) :
    List LLine → LegacySt → ℚ → ℚ → LegacySt × ℚ × ℚ
  | [], s, dt, ct => (s, dt, ct)
  | l :: ls, s, dt, ct =>
    let found := s.accounts.find? (fun a => decide (a.accountNumber = l.accountNo))
    let fresh : LAccount :=
      { id := s.nextId
        clientId := cid
        accountNumber := l.accountNo
        accountName := l.accountTitle
        accountType := inferType l.accountNo
        subledgerType := inferSubledger l.accountNo
        isManual := true }
    let s1 : LegacySt :=
      match found with
      | some _ => s
      | none => { s with accounts := s.accounts ++ [fresh], nextId := s.nextId + 1 }
    let acctId : Nat :=
      match found with
      | some a => a.id
      | none => s.nextId
    let doc : LEntryDoc :=
      { clientId := cid
        date := d
        description := l.description.getD desc
        debitAccount := if l.isDebit then some acctId else none
        creditAccount := if l.isDebit then none else some acctId
        amount := l.amount }
    legacyProcess cid d desc ls { s1 with jdocs := s1.jdocs ++ [doc] }
      (if l.isDebit then dt + l.amount else dt)
      (if l.isDebit then ct else ct + l.amount)

/-- Legacy POST /journal-entry (part_022 lines 68-232).  The balance check
(tolerance 0.001) runs only after every line has been saved, and a failed
check does not undo the saves: the state component of the result keeps the
partially posted documents. -/
def legacyPostJournalEntry (s : LegacySt) (cid : Nat) (d : DDate) (desc : String)
    (lines : List LLine) : LegacySt × Option LegacyErr :=
  if lines.isEmpty then (s, some LegacyErr.validationFailed)
  else if lines.any (fun l => decide (l.amount ≤ 0)) then (s, some LegacyErr.validationFailed)
  else
    match legacyProcess cid d desc lines s 0 0 with
    | (s1, dt, ct) =>
      if |dt - ct| > (1 : ℚ)/1000 then (s1, some LegacyErr.unbalanced)
      else ({ s1 with audits := s1.audits + 1 }, none)

/-! ### Fixed-asset depreciation, `src/unnamed/part_011` -/

/-- Depreciation method enum of the fixed-asset schema. -/
inductive DepreciationMethod where
  | straightLine
  | decliningBalance
  | unitsOfProduction
deriving DecidableEq, Repr

/-- One row of the stored depreciation schedule. -/
structure DepreciationEntry where
  period : DDate
  amount : ℚ
  remainingValue : ℚ
deriving DecidableEq, Repr

/-- Fixed-asset document, `src/unnamed/part_011` (models/fixedAsset.js). -/
structure FixedAsset where
  clientId : Nat
  entityId : Nat
  name : String
  acquisitionDate : DDate
  acquisitionCost : ℚ
  depreciationMethod : DepreciationMethod
  usefulLife : ℚ
  salvageValue : ℚ
  currentBookValue : ℚ
  lastDepreciationDate : Option DDate
  depreciationSchedule : List DepreciationEntry
  disposed : Bool
deriving DecidableEq, Repr

/-- Whole months elapsed between two dates
(`(y2 - y1) * 12 + (m2 - m1)`, part_011 165-166). -/
def monthsBetween (a b : DDate) : Int :=
  (b.year - a.year) * 12 + ((b.month : Int) - (a.month : Int))

/-- `FixedAssetSchema.methods.calculateDepreciation` (part_011 146-188).
The `declining-balance` and `units-of-production` switch cases are empty in
the source, so the amount stays 0 for them; the result is clamped into
`[0, currentBookValue - salvageValue]`. -/
def calculateDepreciation (asset : FixedAsset) (toDate : DDate) : ℚ :=
  let startDate := asset.lastDepreciationDate.getD asset.acquisitionDate
  if asset.disposed || DDate.ble toDate startDate then 0
  else
    let raw : ℚ :=
      match asset.depreciationMethod with
      | .straightLine =>
        ((asset.acquisitionCost - asset.salvageValue) / asset.usefulLife) *
          ((monthsBetween startDate toDate : Int) : ℚ)
      | .decliningBalance => 0
      | .unitsOfProduction => 0
    max (min raw (asset.currentBookValue - asset.salvageValue)) 0

/-- The per-asset body of the monthly run (part_011 201-223): apply the
depreciation when it is positive, appending a schedule row. -/
def depreciateStep (date : DDate) (a : FixedAsset) : FixedAsset :=
  let dep := calculateDepreciation a date
  if dep > 0 then
    { a with
      currentBookValue := a.currentBookValue - dep
      lastDepreciationDate := some date
      depreciationSchedule := a.depreciationSchedule ++
        [{ period := date, amount := dep, remainingValue := a.currentBookValue - dep }] }
  else a

/-- `FixedAssetSchema.statics.runMonthlyDepreciation` (part_011 191-227):
only this client's and entity's non-disposed assets are selected; every
other asset is left exactly as stored. -/
def runMonthlyDepreciation (cid eid : Nat) (date : DDate)
    (assets : List FixedAsset) : List FixedAsset :=
  assets.map (fun a =>
    if decide (a.clientId = cid ∧ a.entityId = eid) && !a.disposed then
      depreciateStep date a
    else a)

/-! ### Ledger reporting, `src/routes/accounting.js` (trial balance 686-795,
balance sheet 798-931) -/

/-- Insertion step of the ascending account-number sort
(`.sort({ accountNumber: 1 })`). -/
def insertByNumber (a : Account) : List Account → List Account
  | [] => [a]
  | b :: bs =>
    if a.accountNumber < b.accountNumber then a :: b :: bs else b :: insertByNumber a bs

/-- Ascending sort of accounts by account number. -/
def sortByNumber : List Account → List Account
  | [] => []
  | a :: rest => insertByNumber a (sortByNumber rest)

/-- A row of the trial-balance report (accounting.js 737-745). -/
structure TBRow where
  accountNumber : String
  accountName : String
  accountType : AccountType
  debits : ℚ
  credits : ℚ
  balance : ℚ
deriving DecidableEq, Repr

/-- Report level of GET /trial-balance. -/
inductive TBLevel where
  | detail
  | summary
deriving DecidableEq, Repr

/-- Trial-balance totals (accounting.js 772-779). -/
structure TBTotals where
  debits : ℚ
  credits : ℚ
  netIncome : ℚ
deriving DecidableEq, Repr

/-- Display name of an account type, the JS string the summary rows embed. -/
def accountTypeName : AccountType → String
  | .asset => "Asset"
  | .liability => "Liability"
  | .equity => "Equity"
  | .revenue => "Revenue"
  | .expense => "Expense"

/-- Debit total of a transaction list (the repeated
`filter(type === 'debit').reduce(...)` of the report handlers). -/
def debitsTotal (ts : List Txn) : ℚ :=
  ((ts.filter (fun t => decide (t.type = LineType.debit))).map (·.amount)).sum

/-- Credit total of a transaction list. -/
def creditsTotal (ts : List Txn) : ℚ :=
  ((ts.filter (fun t => decide (t.type = LineType.credit))).map (·.amount)).sum

/-- Signed debit-minus-credit amount of one transaction line. -/
def dcAmount (t : Txn) : ℚ :=
  if t.type = LineType.debit then t.amount else -t.amount

/-- One trial-balance row (accounting.js 716-746): debit/credit totals of
the account's transactions, balance signed by account type. -/
def tbRowOf (txs : List Txn) (a : Account) : TBRow :=
  let ats := txs.filter (fun t => decide (t.accountId = a.id))
  { accountNumber := a.accountNumber
    accountName := a.accountName
    accountType := a.accountType
    debits := debitsTotal ats
    credits := creditsTotal ats
    balance := if debitPositive a.accountType then debitsTotal ats - creditsTotal ats
      else creditsTotal ats - debitsTotal ats }

/-- The per-account detail rows of GET /trial-balance (accounting.js
701-746): active accounts of the entity, debit/credit totals over the date
range. -/
def detailRows (s : St) (cid eid : Nat) (sd ed : DDate) : List TBRow :=
  (sortByNumber (s.accounts.filter (fun a =>
    decide (a.clientId = cid ∧ a.entityId = eid) && a.isActive))).map
    (tbRowOf (s.txns.filter (fun t =>
      decide (t.clientId = cid ∧ t.entityId = eid) &&
        DDate.ble sd t.date && DDate.ble t.date ed)))

/-- A summary group of GET /trial-balance level=summary, keyed by the first
two digits of the account number; name and type come from the first account
that opened the group (accounting.js 752-768). -/
structure SummaryGroup where
  pfx : String
  accountName : String
  accountType : AccountType
  debits : ℚ
  credits : ℚ
  balance : ℚ
deriving DecidableEq, Repr

/-- Fold one detail row into the summary map, preserving first-seen group
order as a JS object does. -/
def addRowToSummary (r : TBRow) : List SummaryGroup → List SummaryGroup
  | [] =>
    [{ pfx := r.accountNumber.take 2
       accountName := accountTypeName r.accountType ++ " Summary (" ++ r.accountNumber.take 2 ++ "XX)"
       accountType := r.accountType
       debits := r.debits
       credits := r.credits
       balance := r.balance }]
  | g :: gs =>
    if g.pfx = r.accountNumber.take 2 then
      { g with debits := g.debits + r.debits, credits := g.credits + r.credits,
               balance := g.balance + r.balance } :: gs
    else g :: addRowToSummary r gs

/-- The summary regrouping of the detail rows. -/
def summaryRows (rows : List TBRow) : List SummaryGroup :=
  rows.foldl (fun gs r => addRowToSummary r gs) []

/-- Totals over the detail rows (accounting.js 772-779). -/
def detailTotals (rows : List TBRow) : TBTotals :=
  { debits := (rows.map (·.debits)).sum
    credits := (rows.map (·.credits)).sum
    netIncome := ((rows.filter (fun r =>
      decide (r.accountType = AccountType.revenue ∨ r.accountType = AccountType.expense))).map
      (·.balance)).sum }

/-- Totals over the summary groups; the Revenue/Expense filter reads the
group's first-account type. -/
def summaryTotals (gs : List SummaryGroup) : TBTotals :=
  { debits := (gs.map (·.debits)).sum
    credits := (gs.map (·.credits)).sum
    netIncome := ((gs.filter (fun g =>
      decide (g.accountType = AccountType.revenue ∨ g.accountType = AccountType.expense))).map
      (·.balance)).sum }

/-- Totals of GET /trial-balance at the requested level. -/
def getTrialBalanceTotals (s : St) (cid eid : Nat) (sd ed : DDate) (level : TBLevel) : TBTotals :=
  match level with
  | .detail => detailTotals (detailRows s cid eid sd ed)
  | .summary => summaryTotals (summaryRows (detailRows s cid eid sd ed))

/-- A row of the balance-sheet report (accounting.js 848-854). -/
structure BSRow where
  accountNumber : String
  accountType : AccountType
  balance : ℚ
deriving DecidableEq, Repr

/-- Balance-sheet totals (accounting.js 918-923). -/
structure BSTotals where
  assets : ℚ
  liabilities : ℚ
  equity : ℚ
  liabilitiesAndEquity : ℚ
deriving DecidableEq, Repr

/-- Balance-sheet report shape. -/
structure BSReport where
  assets : List BSRow
  liabilities : List BSRow
  equity : List BSRow
  netIncome : ℚ
  totals : BSTotals
deriving DecidableEq, Repr

/-- January 1st of the as-of year, the `new Date(currentYear, 0, 1)` year
start; months and days are 0-based offsets here. -/
def yearStartOf (asOf : DDate) : DDate :=
  { year := asOf.year, month := 0, day := 0 }

/-- The active Asset/Liability/Equity accounts the balance sheet reads
(accounting.js 812-817). -/
def bsAccounts (s : St) (cid eid : Nat) : List Account :=
  sortByNumber (s.accounts.filter (fun a =>
    decide (a.clientId = cid ∧ a.entityId = eid) && a.isActive &&
      decide (a.accountType = AccountType.asset ∨ a.accountType = AccountType.liability ∨
        a.accountType = AccountType.equity)))

/-- The transactions up to the as-of date (accounting.js 820-824). -/
def bsTxns (s : St) (cid eid : Nat) (asOf : DDate) : List Txn :=
  s.txns.filter (fun t =>
    decide (t.clientId = cid ∧ t.entityId = eid) && DDate.ble t.date asOf)

/-- One balance-sheet row (accounting.js 827-855): Asset balances are
debits minus credits, the rest credits minus debits. -/
def bsRowOf (txs : List Txn) (a : Account) : BSRow :=
  let ats := txs.filter (fun t => decide (t.accountId = a.id))
  { accountNumber := a.accountNumber
    accountType := a.accountType
    balance := if a.accountType = AccountType.asset then
        debitsTotal ats - creditsTotal ats
      else creditsTotal ats - debitsTotal ats }

/-- The active Revenue/Expense accounts (accounting.js 868-873). -/
def incomeAccountsOf (s : St) (cid eid : Nat) : List Account :=
  s.accounts.filter (fun a =>
    decide (a.clientId = cid ∧ a.entityId = eid) && a.isActive &&
      decide (a.accountType = AccountType.revenue ∨ a.accountType = AccountType.expense))

/-- The income transactions of the as-of calendar year (accounting.js
876-885). -/
def incomeTxnsOf (s : St) (cid eid : Nat) (asOf : DDate) : List Txn :=
  s.txns.filter (fun t =>
    decide (t.clientId = cid ∧ t.entityId = eid) &&
      (incomeAccountsOf s cid eid).any (fun a => decide (a.id = t.accountId)) &&
      DDate.ble (yearStartOf asOf) t.date && DDate.ble t.date asOf)

/-- Year-to-date net income (accounting.js 887-907). -/
def netIncomeOf (s : St) (cid eid : Nat) (asOf : DDate) : ℚ :=
  ((incomeAccountsOf s cid eid).map (fun a =>
    let ats := (incomeTxnsOf s cid eid asOf).filter (fun t => decide (t.accountId = a.id))
    if a.accountType = AccountType.revenue then creditsTotal ats - debitsTotal ats
    else -(debitsTotal ats - creditsTotal ats))).sum

/-- GET /balance-sheet of `src/routes/accounting.js` (798-931): balances of
active Asset/Liability/Equity accounts from inception to the as-of date,
net income from Revenue/Expense transactions of the as-of calendar year
only, equity totals with net income folded in. -/
def bsRows (s : St) (cid eid : Nat) (asOf : DDate) : List BSRow :=
  (bsAccounts s cid eid).map (bsRowOf (bsTxns s cid eid asOf))

/-- GET /balance-sheet, continued: assembly of the report record. -/
def getBalanceSheet (s : St) (cid eid : Nat) (asOf : DDate) : BSReport :=
  let rows := bsRows s cid eid asOf
  let assets := rows.filter (fun r => decide (r.accountType = AccountType.asset))
  let liabilities := rows.filter (fun r => decide (r.accountType = AccountType.liability))
  let equity := rows.filter (fun r => decide (r.accountType = AccountType.equity))
  let netIncome := netIncomeOf s cid eid asOf
  { assets := assets
    liabilities := liabilities
    equity := equity
    netIncome := netIncome
    totals :=
      { assets := (assets.map (·.balance)).sum
        liabilities := (liabilities.map (·.balance)).sum
        equity := (equity.map (·.balance)).sum + netIncome
        liabilitiesAndEquity :=
          (liabilities.map (·.balance)).sum + (equity.map (·.balance)).sum + netIncome } }

/-! ### Concrete ledger instances used by counterexamples and witnesses -/

/-- A fresh two-account ledger (cash 1000, revenue 4000) for one entity. -/
def twoAccountLedger : St :=
  { entities := [⟨1, 1⟩]
    accounts := [
      { id := 1, clientId := 1, entityId := 1, accountNumber := "1000",
        accountName := "Cash", accountType := AccountType.asset, isActive := true, balance := 0 },
      { id := 2, clientId := 1, entityId := 1, accountNumber := "4000",
        accountName := "Revenue", accountType := AccountType.revenue, isActive := true, balance := 0 }]
    entries := []
    txns := []
    audits := 0
    nextId := 3 }

/-- The Scenario-A posting request: debit cash 500, credit revenue 500. -/
def scenarioALines : List LineInput :=
  [⟨1, 500, LineType.debit, none⟩, ⟨2, 500, LineType.credit, none⟩]

/-- Scenario-A posting date, 2025-01-15. -/
def scenarioADate : DDate := ⟨2025, 0, 14⟩

/-- Ledger after posting the Scenario-A entry (journal entry id 3). -/
def c1afterPost : St :=
  postResultState twoAccountLedger 1 1 scenarioADate "Scenario A" scenarioALines

/-- Ledger after then reversing entry 3 (reversal id 4). -/
def c1afterReverse : St :=
  match reverseJournalEntry c1afterPost 1 3 ⟨2025, 1, 2⟩ with
  | .ok s => s
  | .error _ => c1afterPost

/-- Ledger after posting the Scenario-A entry, for the C4 witness. -/
def c4afterPost : St :=
  postResultState twoAccountLedger 1 1 scenarioADate "Scenario A" scenarioALines

/-- Ledger after the C4 reversal. -/
def c4afterReverse : St :=
  match reverseJournalEntry c4afterPost 1 3 ⟨2025, 1, 2⟩ with
  | .ok s => s
  | .error _ => c4afterPost

/-- A ledger holding a reversed entry (id 3) and its reversal (id 4, with
`reversalOf` set and status `posted`), reached by posting and reversing
Scenario A. -/
def c5ledger : St :=
  match reverseJournalEntry
      (postResultState twoAccountLedger 1 1 scenarioADate "Scenario A" scenarioALines)
      1 3 ⟨2025, 1, 2⟩ with
  | .ok s => s
  | .error _ => twoAccountLedger

/-- Ledger after a balanced revenue entry dated 2024-06-11 (debit cash 100,
credit revenue 100), the C6 history. -/
def c6ledger : St :=
  postResultState twoAccountLedger 1 1 ⟨2024, 5, 10⟩ "prior-year revenue"
    [⟨1, 100, LineType.debit, none⟩, ⟨2, 100, LineType.credit, none⟩]

/-- Trial-balance state for C10: a Revenue account 4000 and an Asset
account 4050 share the two-digit prefix 40; one balanced entry debits the
asset and credits the revenue account. -/
def c10ledger : St :=
  { entities := [⟨1, 1⟩]
    accounts := [
      { id := 1, clientId := 1, entityId := 1, accountNumber := "4000",
        accountName := "Revenue", accountType := AccountType.revenue, isActive := true, balance := 100 },
      { id := 2, clientId := 1, entityId := 1, accountNumber := "4050",
        accountName := "Oddly numbered asset", accountType := AccountType.asset,
        isActive := true, balance := 100 }]
    entries := [
      { id := 7, clientId := 1, entityId := 1, entryNumber := "2025-03-00001",
        date := ⟨2025, 2, 2⟩, description := "sale", status := JEStatus.posted,
        reversalOf := none, reversedBy := none, totalAmount := 100,
        periodYear := 2025, periodMonth := 3 }]
    txns := [
      { clientId := 1, entityId := 1, accountId := 2, journalEntryId := 7,
        date := ⟨2025, 2, 2⟩, description := "sale", amount := 100, type := LineType.debit },
      { clientId := 1, entityId := 1, accountId := 1, journalEntryId := 7,
        date := ⟨2025, 2, 2⟩, description := "sale", amount := 100, type := LineType.credit }]
    audits := 1
    nextId := 10 }

/-- Legacy store with one existing cash account. -/
def legacyLedger : LegacySt :=
  { accounts := [⟨1, 1, "1000", "Cash", AccountType.asset, "GL", true⟩]
    jdocs := []
    audits := 0
    nextId := 2 }

/-- An unbalanced legacy request: debit 100 against credit 50. -/
def legacyUnbalancedLines : List LLine :=
  [⟨"1000", "Cash", 100, true, none⟩, ⟨"4000", "Revenue", 50, false, none⟩]

/-- A balanced legacy request whose credit line names the unknown account
number 5000. -/
def legacyUnknownAccountLines : List LLine :=
  [⟨"1000", "Cash", 100, true, none⟩, ⟨"5000", "Brand new", 100, false, none⟩]

/-- A straight-line truck asset: cost 1200, salvage 200, 12-month life. -/
def truckAsset : FixedAsset :=
  { clientId := 1, entityId := 1, name := "Truck"
    acquisitionDate := ⟨2024, 0, 0⟩
    acquisitionCost := 1200
    depreciationMethod := DepreciationMethod.straightLine
    usefulLife := 12
    salvageValue := 200
    currentBookValue := 1200
    lastDepreciationDate := none
    depreciationSchedule := []
    disposed := false }

/-- The truck asset with a declining-balance method instead. -/
def decliningTruck : FixedAsset :=
  { truckAsset with depreciationMethod := DepreciationMethod.decliningBalance }

/-- The truck asset with a units-of-production method instead. -/
def unitsTruck : FixedAsset :=
  { truckAsset with depreciationMethod := DepreciationMethod.unitsOfProduction }

/-- The C6 posting request: debit cash 100, credit revenue 100. -/
def c6lines : List LineInput :=
  [⟨1, 100, LineType.debit, none⟩, ⟨2, 100, LineType.credit, none⟩]

/-- The C6 posting date, 2024-06-11. -/
def c6date : DDate := ⟨2024, 5, 10⟩

/-- The C6 balance-sheet as-of date, 2025-06-11. -/
def c6asOf : DDate := ⟨2025, 5, 10⟩

/-- The two-account ledger with the cash account deactivated.  Deactivating
an account with posted history is an ordinary update (the updateAccount
controller sets isActive from the request body with no restriction), and
the posting lookup `Account.findOne({_id, clientId, entityId})` does not
filter on isActive, so entries keep posting against it. -/
def inactiveLedger : St :=
  { entities := [⟨1, 1⟩]
    accounts := [
      { id := 1, clientId := 1, entityId := 1, accountNumber := "1000",
        accountName := "Cash", accountType := AccountType.asset, isActive := false, balance := 0 },
      { id := 2, clientId := 1, entityId := 1, accountNumber := "4000",
        accountName := "Revenue", accountType := AccountType.revenue, isActive := true, balance := 0 }]
    entries := []
    txns := []
    audits := 0
    nextId := 3 }

/-- Ledger after a current-year, exactly balanced entry (debit cash 100,
credit revenue 100, dated 2025-03-06) posted while the cash account is
deactivated. -/
def c6inactiveLedger : St :=
  postResultState inactiveLedger 1 1 ⟨2025, 2, 5⟩ "deactivated asset" c6lines

/-- The C6 in-year as-of date, 2025-12-31. -/
def c6inAsOf : DDate := ⟨2025, 11, 30⟩

/-- A posting request that is balanced only within the handler's 0.01
tolerance: debit cash 100.009, credit revenue 100. -/
def c6tolLines : List LineInput :=
  [⟨1, (100009 : ℚ)/1000, LineType.debit, none⟩, ⟨2, 100, LineType.credit, none⟩]

/-- Ledger after two such tolerance-balanced entries, both dated in 2025;
each passes the 0.01 balance check, but the 0.009 gaps accumulate. -/
def c6tolLedger : St :=
  postResultState (postResultState twoAccountLedger 1 1 ⟨2025, 2, 5⟩ "t1" c6tolLines)
    1 1 ⟨2025, 2, 6⟩ "t2" c6tolLines

/-- Ledger after reversing the reversal entry 4 of `c5ledger` (the run the
spec says must be rejected). -/
def c5afterSecondReverse : St :=
  match reverseJournalEntry c5ledger 1 4 ⟨2025, 1, 3⟩ with
  | .ok s => s
  | .error _ => c5ledger

/-- A hand-written ledger holding one posted entry (id 3) with its two
lines, used to instantiate eligibility theorems. -/
def c5wLedger : St :=
  { entities := [⟨1, 1⟩]
    accounts := [
      { id := 1, clientId := 1, entityId := 1, accountNumber := "1000",
        accountName := "Cash", accountType := AccountType.asset, isActive := true, balance := 500 },
      { id := 2, clientId := 1, entityId := 1, accountNumber := "4000",
        accountName := "Revenue", accountType := AccountType.revenue, isActive := true, balance := 500 }]
    entries := [
      { id := 3, clientId := 1, entityId := 1, entryNumber := "2025-01-00001",
        date := ⟨2025, 0, 14⟩, description := "Scenario A", status := JEStatus.posted,
        reversalOf := none, reversedBy := none, totalAmount := 500,
        periodYear := 2025, periodMonth := 1 }]
    txns := [
      { clientId := 1, entityId := 1, accountId := 1, journalEntryId := 3,
        date := ⟨2025, 0, 14⟩, description := "Scenario A", amount := 500, type := LineType.debit },
      { clientId := 1, entityId := 1, accountId := 2, journalEntryId := 3,
        date := ⟨2025, 0, 14⟩, description := "Scenario A", amount := 500, type := LineType.credit }]
    audits := 1
    nextId := 4 }

/-! ## Theorems -/

/-! ### Fixed-asset depreciation (C8, C9) -/

theorem calculateDepreciation_nonneg (a : FixedAsset) (d : DDate) :
    0 ≤ calculateDepreciation a d := by
  rw [calculateDepreciation]
  split
  · exact le_refl 0
  · exact le_max_right _ 0

theorem calculateDepreciation_le_headroom (a : FixedAsset) (d : DDate) :
    calculateDepreciation a d ≤ max (a.currentBookValue - a.salvageValue) 0 := by
  rw [calculateDepreciation]
  split
  · exact le_max_right _ 0
  · exact max_le_max (min_le_right _ _) (le_refl 0)

theorem depreciateStep_bookValue_le (d : DDate) (a : FixedAsset) :
    (depreciateStep d a).currentBookValue ≤ a.currentBookValue := by
  rw [depreciateStep]
  split
  · have h := calculateDepreciation_nonneg a d
    simp only
    linarith
  · exact le_refl _

theorem depreciateStep_salvage_bound (d : DDate) (a : FixedAsset) :
    min a.salvageValue a.currentBookValue ≤ (depreciateStep d a).currentBookValue := by
  rw [depreciateStep]
  split
  case isTrue hpos =>
    have hle := calculateDepreciation_le_headroom a d
    simp only
    rcases le_or_lt (a.currentBookValue - a.salvageValue) 0 with h | h
    · rw [max_eq_right h] at hle
      linarith
    · rw [max_eq_left h.le] at hle
      have : a.salvageValue ≤ a.currentBookValue - calculateDepreciation a d := by linarith
      exact le_trans (min_le_left _ _) this
  case isFalse hpos => exact min_le_right _ _

/-- C8: for every non-disposed fixed asset and every run date,
runMonthlyDepreciation never drives the asset's currentBookValue below its
salvageValue — each period's depreciation is clamped into
[0, currentBookValue − salvageValue] — and disposed assets are excluded
from the run, so their book value and schedule are unchanged. -/
theorem c8_monthly_depreciation_respects_salvage (cid eid : Nat) (d : DDate)
    (assets : List FixedAsset) (a : FixedAsset) (ha : a ∈ assets) :
    ∃ a' ∈ runMonthlyDepreciation cid eid d assets,
      (a.disposed = true → a' = a) ∧
      0 ≤ calculateDepreciation a d ∧
      calculateDepreciation a d ≤ max (a.currentBookValue - a.salvageValue) 0 ∧
      min a.salvageValue a.currentBookValue ≤ a'.currentBookValue ∧
      a'.currentBookValue ≤ a.currentBookValue := by
  refine ⟨if decide (a.clientId = cid ∧ a.entityId = eid) && !a.disposed then
      depreciateStep d a else a,
    List.mem_map_of_mem _ ha, ?_, calculateDepreciation_nonneg a d,
    calculateDepreciation_le_headroom a d, ?_, ?_⟩
  · intro hd
    simp [hd]
  · split
    · exact depreciateStep_salvage_bound d a
    · exact min_le_right _ _
  · split
    · exact depreciateStep_bookValue_le d a
    · exact le_refl _

/-- Witness for C8 at a concrete run: the truck loses 250 over three
months and its book value stays above the 200 salvage value. -/
theorem c8_witness :
    truckAsset ∈ [truckAsset] ∧
    ∃ a' ∈ runMonthlyDepreciation 1 1 ⟨2024, 3, 0⟩ [truckAsset],
      (truckAsset.disposed = true → a' = truckAsset) ∧
      0 ≤ calculateDepreciation truckAsset ⟨2024, 3, 0⟩ ∧
      calculateDepreciation truckAsset ⟨2024, 3, 0⟩ ≤
        max (truckAsset.currentBookValue - truckAsset.salvageValue) 0 ∧
      min truckAsset.salvageValue truckAsset.currentBookValue ≤ a'.currentBookValue ∧
      a'.currentBookValue ≤ truckAsset.currentBookValue :=
  ⟨List.mem_singleton_self truckAsset,
    c8_monthly_depreciation_respects_salvage 1 1 ⟨2024, 3, 0⟩ [truckAsset] truckAsset
      (List.mem_singleton_self truckAsset)⟩

/-- C9: the spec requires the declining-balance and units-of-production
methods to fail loudly when invoked, but `calculateDepreciation` leaves
their switch cases empty and silently returns 0 for them — here on a truck
asset three elapsed months into its life, where the implemented
straight-line method yields 250. -/
theorem c9_unsupported_methods_return_silent_zero :
    calculateDepreciation decliningTruck ⟨2024, 3, 0⟩ = 0 ∧
    calculateDepreciation unitsTruck ⟨2024, 3, 0⟩ = 0 ∧
    calculateDepreciation truckAsset ⟨2024, 3, 0⟩ = 250 := by
  refine ⟨?_, ?_, ?_⟩ <;>
    norm_num +decide [calculateDepreciation, monthsBetween, DDate.ble, truckAsset,
      decliningTruck, unitsTruck]

/-! ### Trial balance summary level (C10) -/

theorem addRowToSummary_debits_sum (r : TBRow) (gs : List SummaryGroup) :
    ((addRowToSummary r gs).map (·.debits)).sum = (gs.map (·.debits)).sum + r.debits := by
  induction gs with
  | nil => simp [addRowToSummary]
  | cons g gs ih =>
    by_cases h : g.pfx = r.accountNumber.take 2
    · simp only [addRowToSummary, if_pos h, List.map_cons, List.sum_cons]
      ring
    · simp only [addRowToSummary, if_neg h, List.map_cons, List.sum_cons, ih]
      ring

theorem addRowToSummary_credits_sum (r : TBRow) (gs : List SummaryGroup) :
    ((addRowToSummary r gs).map (·.credits)).sum = (gs.map (·.credits)).sum + r.credits := by
  induction gs with
  | nil => simp [addRowToSummary]
  | cons g gs ih =>
    by_cases h : g.pfx = r.accountNumber.take 2
    · simp only [addRowToSummary, if_pos h, List.map_cons, List.sum_cons]
      ring
    · simp only [addRowToSummary, if_neg h, List.map_cons, List.sum_cons, ih]
      ring

theorem summaryFold_debits_sum (rows : List TBRow) :
    ∀ gs : List SummaryGroup,
      ((rows.foldl (fun gs r => addRowToSummary r gs) gs).map (·.debits)).sum =
        (gs.map (·.debits)).sum + (rows.map (·.debits)).sum := by
  induction rows with
  | nil => intro gs; simp
  | cons r rows ih =>
    intro gs
    simp only [List.foldl_cons, ih, addRowToSummary_debits_sum, List.map_cons, List.sum_cons]
    ring

theorem summaryFold_credits_sum (rows : List TBRow) :
    ∀ gs : List SummaryGroup,
      ((rows.foldl (fun gs r => addRowToSummary r gs) gs).map (·.credits)).sum =
        (gs.map (·.credits)).sum + (rows.map (·.credits)).sum := by
  induction rows with
  | nil => intro gs; simp
  | cons r rows ih =>
    intro gs
    simp only [List.foldl_cons, ih, addRowToSummary_credits_sum, List.map_cons, List.sum_cons]
    ring

/-- C10 (amended): the trial balance at level summary always reports the
same totals.debits and totals.credits as the detail level over the same
inputs; totals.netIncome is not preserved in general (see the
counterexample), because a summary group's accountType is inherited from
the first account of the group. -/
theorem c10_summary_preserves_debit_credit_totals (s : St) (cid eid : Nat) (sd ed : DDate) :
    (getTrialBalanceTotals s cid eid sd ed TBLevel.summary).debits =
      (getTrialBalanceTotals s cid eid sd ed TBLevel.detail).debits ∧
    (getTrialBalanceTotals s cid eid sd ed TBLevel.summary).credits =
      (getTrialBalanceTotals s cid eid sd ed TBLevel.detail).credits := by
  constructor
  · simp [getTrialBalanceTotals, summaryTotals, detailTotals, summaryRows,
      summaryFold_debits_sum]
  · simp [getTrialBalanceTotals, summaryTotals, detailTotals, summaryRows,
      summaryFold_credits_sum]

/-- Counterexample to C10 as stated: with a Revenue account 4000 and an
Asset account 4050 sharing prefix 40, the summary level reports
totals.netIncome 200 while the detail level reports 100, though debit and
credit totals agree. -/
theorem c10_counterexample :
    (getTrialBalanceTotals c10ledger 1 1 ⟨2025, 0, 0⟩ ⟨2025, 11, 30⟩ TBLevel.detail).netIncome
        = 100 ∧
    (getTrialBalanceTotals c10ledger 1 1 ⟨2025, 0, 0⟩ ⟨2025, 11, 30⟩ TBLevel.summary).netIncome
        = 200 := by
  constructor <;>
    norm_num +decide [getTrialBalanceTotals, detailTotals, summaryTotals, summaryRows,
      detailRows, tbRowOf, debitsTotal, creditsTotal, sortByNumber, insertByNumber,
      addRowToSummary, c10ledger, DDate.ble, debitPositive, accountTypeName,
      List.filter_cons, List.filter_nil, List.sum_cons, List.sum_nil, List.map_cons,
      List.map_nil, List.foldl_cons, List.foldl_nil]

/-! ### Closed counterexample runs (C1, C3, C5, C6, C7) -/

/-- Counterexample to C1 as stated: post the Scenario-A entry and reverse
it.  The stored balance of the cash account returns to 0, but the signed
sum over lines of posted, non-reversed entries is -500, because the
reversal entry itself stays in status posted while the original entry's
lines remain stored. -/
theorem c1_counterexample :
    (reverseJournalEntry c1afterPost 1 3 ⟨2025, 1, 2⟩).isOk = true ∧
    (findAccountById c1afterReverse.accounts 1).isSome = true ∧
    balanceOf c1afterReverse.accounts 1 = 0 ∧
    claimedPostedSum c1afterReverse 1 = -500 := by
  refine ⟨?_, ?_, ?_, ?_⟩ <;>
    norm_num +decide [c1afterReverse, c1afterPost, postResultState, postJournalEntry,
      twoAccountLedger, scenarioALines, scenarioADate, sumDebits, sumCredits, processLines,
      findAccount, applyDelta, lineDelta, debitPositive, mkTxn, postHeader, entryNumberOf,
      padNum, reverseJournalEntry, txnsOf, findAccountById, applyInverse, inverseDelta,
      mirrorTxn, revHeader, markReversed, balanceOf, claimedPostedSum, entryStatusOf,
      txnDelta, typeAt, oDelta, List.filter_cons, List.filter_nil, List.sum_cons,
      List.sum_nil, List.map_cons, List.map_nil, List.find?_cons, List.find?_nil,
      List.any_cons, List.any_nil]

/-- Counterexample to C3 as stated: the legacy handler of part_022 saves
one journal-entry document per line before its balance check and has no
transaction, so an unbalanced request is rejected while its two line
documents stay persisted. -/
theorem c3_counterexample :
    (legacyPostJournalEntry legacyLedger 1 scenarioADate "unbalanced" legacyUnbalancedLines).2 =
      some LegacyErr.unbalanced ∧
    (legacyPostJournalEntry legacyLedger 1 scenarioADate "unbalanced" legacyUnbalancedLines).1.jdocs.length = 2 ∧
    legacyLedger.jdocs.length = 0 := by
  refine ⟨?_, ?_, ?_⟩ <;>
    norm_num +decide [legacyPostJournalEntry, legacyProcess, legacyLedger,
      legacyUnbalancedLines, scenarioADate, inferType, inferSubledger, List.filter_cons,
      List.filter_nil, List.sum_cons, List.sum_nil, List.map_cons, List.map_nil,
      List.find?_cons, List.find?_nil, List.any_cons, List.any_nil]

/-- Counterexample to C5 as stated: `c5ledger` holds reversal entry 4
(status posted, reversalOf = 3); the delete handler only filters on
status ≠ reversed, so reversing entry 4 succeeds and creates entry 5, a
reversal of a reversal, with reversalOf = 4. -/
theorem c5_counterexample :
    ((c5ledger.entries.find? (fun e => decide (e.id = 4))).map
        (fun e => (e.status, e.reversalOf))) = some (JEStatus.posted, some 3) ∧
    (reverseJournalEntry c5ledger 1 4 ⟨2025, 1, 3⟩).isOk = true ∧
    ((c5afterSecondReverse.entries.find? (fun e => decide (e.id = 5))).map
        (·.reversalOf)) = some (some 4) := by
  refine ⟨?_, ?_, ?_⟩ <;>
    norm_num +decide [c5afterSecondReverse, c5ledger, c1afterPost, postResultState,
      postJournalEntry, twoAccountLedger, scenarioALines, scenarioADate, sumDebits,
      sumCredits, processLines, findAccount, applyDelta, lineDelta, debitPositive, mkTxn,
      postHeader, entryNumberOf, padNum, reverseJournalEntry, txnsOf, findAccountById,
      applyInverse, inverseDelta, mirrorTxn, revHeader, markReversed, List.filter_cons,
      List.filter_nil, List.sum_cons, List.sum_nil, List.map_cons, List.map_nil,
      List.find?_cons, List.find?_nil, List.any_cons, List.any_nil]

/-- Counterexample to C6 as stated, exhibiting the three independent ways
the identity fails.  (a) Prior-year income: one exactly balanced entry
(debit cash 100, credit revenue 100) dated 2024 is the whole history; on
the 2025 as-of date the balance sheet reports assets 100 but liabilities +
equity + netIncome 0, because net income only folds in the as-of calendar
year and nothing closes prior years into equity.  (b) Deactivated account:
the same exactly balanced entry dated inside the as-of year, posted
against a deactivated cash account (the posting lookup ignores isActive,
and updateAccount deactivates freely), gives assets 0 against liabilities
+ equity + netIncome 100, because both balance-sheet queries filter
isActive while the transactions persist.  (c) Tolerance accumulation: two
entries each balanced within the handler's 0.01 tolerance (debit 100.009
against credit 100) are both accepted, yet the report gap 0.018 exceeds
the claimed 0.01 tolerance. -/
theorem c6_counterexample :
    ((postJournalEntry twoAccountLedger 1 1 c6date "prior-year revenue" c6lines).isOk = true ∧
      (getBalanceSheet c6ledger 1 1 c6asOf).totals.assets = 100 ∧
      (getBalanceSheet c6ledger 1 1 c6asOf).totals.liabilitiesAndEquity = 0 ∧
      ¬(|(getBalanceSheet c6ledger 1 1 c6asOf).totals.assets -
          (getBalanceSheet c6ledger 1 1 c6asOf).totals.liabilitiesAndEquity| ≤ (1 : ℚ)/100)) ∧
    ((postJournalEntry inactiveLedger 1 1 ⟨2025, 2, 5⟩ "deactivated asset" c6lines).isOk = true ∧
      (c6inactiveLedger.txns.map dcAmount).sum = 0 ∧
      (getBalanceSheet c6inactiveLedger 1 1 c6inAsOf).totals.assets = 0 ∧
      (getBalanceSheet c6inactiveLedger 1 1 c6inAsOf).totals.liabilitiesAndEquity = 100 ∧
      ¬(|(getBalanceSheet c6inactiveLedger 1 1 c6inAsOf).totals.assets -
          (getBalanceSheet c6inactiveLedger 1 1 c6inAsOf).totals.liabilitiesAndEquity| ≤ (1 : ℚ)/100)) ∧
    (|sumDebits c6tolLines - sumCredits c6tolLines| ≤ (1 : ℚ)/100 ∧
      (postJournalEntry twoAccountLedger 1 1 ⟨2025, 2, 5⟩ "t1" c6tolLines).isOk = true ∧
      (postJournalEntry (postResultState twoAccountLedger 1 1 ⟨2025, 2, 5⟩ "t1" c6tolLines)
        1 1 ⟨2025, 2, 6⟩ "t2" c6tolLines).isOk = true ∧
      (getBalanceSheet c6tolLedger 1 1 c6inAsOf).totals.assets = (100009 : ℚ)/500 ∧
      (getBalanceSheet c6tolLedger 1 1 c6inAsOf).totals.liabilitiesAndEquity = 200 ∧
      ¬(|(getBalanceSheet c6tolLedger 1 1 c6inAsOf).totals.assets -
          (getBalanceSheet c6tolLedger 1 1 c6inAsOf).totals.liabilitiesAndEquity| ≤ (1 : ℚ)/100)) := by
  refine ⟨⟨?_, ?_, ?_, ?_⟩, ⟨?_, ?_, ?_, ?_, ?_⟩, ⟨?_, ?_, ?_, ?_, ?_, ?_⟩⟩ <;>
    norm_num +decide [abs_le, abs_lt, lt_abs,
      c6ledger, c6lines, c6date, c6asOf, c6inactiveLedger, inactiveLedger,
      c6inAsOf, c6tolLedger, c6tolLines, dcAmount, postResultState, postJournalEntry,
      twoAccountLedger, sumDebits, sumCredits, processLines, findAccount, applyDelta,
      lineDelta, debitPositive, mkTxn, postHeader, entryNumberOf, padNum, getBalanceSheet,
      bsRows, bsAccounts, bsTxns, bsRowOf, debitsTotal, creditsTotal, incomeAccountsOf,
      incomeTxnsOf, netIncomeOf, yearStartOf, sortByNumber, insertByNumber, DDate.ble,
      List.filter_cons, List.filter_nil, List.sum_cons, List.sum_nil, List.map_cons,
      List.map_nil, List.find?_cons, List.find?_nil, List.any_cons, List.any_nil]

/-- Counterexample to C7 as stated: the legacy handler auto-provisions the
unknown account number 5000 during a plain posting — no flag guards it —
creating a second account and accepting the entry. -/
theorem c7_counterexample :
    (legacyPostJournalEntry legacyLedger 1 scenarioADate "auto" legacyUnknownAccountLines).2 = none ∧
    legacyLedger.accounts.length = 1 ∧
    (legacyLedger.accounts.find? (fun a => decide (a.accountNumber = "5000"))) = none ∧
    (legacyPostJournalEntry legacyLedger 1 scenarioADate "auto" legacyUnknownAccountLines).1.accounts.length = 2 ∧
    ((legacyPostJournalEntry legacyLedger 1 scenarioADate "auto"
        legacyUnknownAccountLines).1.accounts.find?
      (fun a => decide (a.accountNumber = "5000"))).isSome = true := by
  refine ⟨?_, ?_, ?_, ?_, ?_⟩ <;>
    norm_num +decide [legacyPostJournalEntry, legacyProcess, legacyLedger,
      legacyUnknownAccountLines, scenarioADate, inferType, inferSubledger, List.filter_cons,
      List.filter_nil, List.sum_cons, List.sum_nil, List.map_cons, List.map_nil,
      List.find?_cons, List.find?_nil, List.any_cons, List.any_nil]

/-! ### Account-list algebra -/

theorem sum_map_addQ {α : Type} (l : List α) (f g : α → ℚ) :
    (l.map (fun a => f a + g a)).sum = (l.map f).sum + (l.map g).sum := by
  induction l with
  | nil => simp
  | cons a l ih =>
    simp [ih]
    ring

theorem sum_map_negQ {α : Type} (l : List α) (f : α → ℚ) :
    (l.map (fun a => -(f a))).sum = -((l.map f).sum) := by
  induction l with
  | nil => simp
  | cons a l ih =>
    simp [ih]
    ring

theorem inverseDelta_eq_neg (ty : AccountType) (lt : LineType) (amt : ℚ) :
    inverseDelta ty lt amt = -(lineDelta ty lt amt) := by
  unfold inverseDelta lineDelta
  split <;> split <;> ring

theorem findAccountById_applyDelta (accs : List Account) (aid : Nat) (d : ℚ) (x : Nat) :
    findAccountById (applyDelta accs aid d) x =
      (findAccountById accs x).map
        (fun a => if a.id = aid then { a with balance := a.balance + d } else a) := by
  unfold findAccountById applyDelta
  induction accs with
  | nil => simp
  | cons a l ih =>
    simp only [List.map_cons, List.find?_cons]
    by_cases h : a.id = x
    · subst h
      by_cases h2 : a.id = aid <;> simp [h2]
    · by_cases h2 : a.id = aid
      · rw [h2] at h
        simp [h2, h, ih]
      · simp [h2, h, ih]

theorem findAccount_applyDelta (accs : List Account) (cid eid aid : Nat) (d : ℚ) (x : Nat) :
    findAccount (applyDelta accs aid d) cid eid x =
      (findAccount accs cid eid x).map
        (fun a => if a.id = aid then { a with balance := a.balance + d } else a) := by
  unfold findAccount applyDelta
  rw [List.find?_map]
  congr 2
  funext b
  by_cases h2 : b.id = aid <;> simp [h2]

theorem typeAt_applyDelta (accs : List Account) (aid : Nat) (d : ℚ) (x : Nat) :
    typeAt (applyDelta accs aid d) x = typeAt accs x := by
  unfold typeAt
  rw [findAccountById_applyDelta]
  cases h : findAccountById accs x with
  | none => simp
  | some a =>
    by_cases h2 : a.id = aid <;> simp [h2]

theorem ids_applyDelta (accs : List Account) (aid : Nat) (d : ℚ) :
    (applyDelta accs aid d).map (·.id) = accs.map (·.id) := by
  unfold applyDelta
  induction accs with
  | nil => rfl
  | cons a l ih =>
    by_cases h2 : a.id = aid <;> simp [h2, ih]

theorem balanceOf_applyDelta (accs : List Account) (aid : Nat) (d : ℚ) (x : Nat) :
    balanceOf (applyDelta accs aid d) x =
      balanceOf accs x +
        (if x = aid ∧ (findAccountById accs x).isSome = true then d else 0) := by
  unfold balanceOf
  rw [findAccountById_applyDelta]
  cases h : findAccountById accs x with
  | none => simp
  | some a =>
    have haid : a.id = x := by
      have := List.find?_some h
      simpa using this
    by_cases h2 : x = aid
    · have hida : a.id = aid := haid.trans h2
      simp [hida, h2]
    · have hne : ¬(a.id = aid) := by rw [haid]; exact h2
      simp [hne, h2]

theorem findAccountById_eq_of_mem (accs : List Account) (a : Account)
    (hnd : (accs.map (·.id)).Nodup) (ha : a ∈ accs) :
    findAccountById accs a.id = some a := by
  unfold findAccountById
  induction accs with
  | nil => cases ha
  | cons b l ih =>
    rcases List.mem_cons.mp ha with h | h
    · subst h
      simp
    · have hb : b.id ≠ a.id := by
        intro he
        have : a.id ∈ l.map (·.id) := List.mem_map_of_mem _ h
        rw [← he] at this
        exact (List.nodup_cons.mp hnd).1 this
      simp only [List.find?_cons]
      rw [decide_eq_false hb]
      exact ih (List.nodup_cons.mp hnd).2 h

theorem findAccount_imp_findAccountById (accs : List Account) (cid eid aid : Nat)
    (a : Account) (hnd : (accs.map (·.id)).Nodup)
    (h : findAccount accs cid eid aid = some a) :
    findAccountById accs aid = some a := by
  have hmem : a ∈ accs := List.mem_of_find?_eq_some h
  have hp := List.find?_some h
  have haid : a.id = aid := by
    simp only [decide_eq_true_eq] at hp
    exact hp.1
  rw [← haid]
  exact findAccountById_eq_of_mem accs a hnd hmem

/-! ### Signed-sum lemmas -/

theorem linesSignedSum_nil (accs : List Account) (x : Nat) :
    linesSignedSum accs [] x = 0 := by
  simp [linesSignedSum]

theorem linesSignedSum_cons (accs : List Account) (l : LineInput) (ls : List LineInput) (x : Nat) :
    linesSignedSum accs (l :: ls) x =
      (if l.accountId = x then oDelta (typeAt accs x) l.type l.amount else 0) +
        linesSignedSum accs ls x := by
  unfold linesSignedSum
  rw [List.filter_cons]
  by_cases h : l.accountId = x <;> simp [h]

theorem linesSignedSum_congr (accs1 accs2 : List Account) (ls : List LineInput) (x : Nat)
    (h : typeAt accs1 x = typeAt accs2 x) :
    linesSignedSum accs1 ls x = linesSignedSum accs2 ls x := by
  unfold linesSignedSum
  rw [h]

theorem signedTxnSum_eq_fixed (accs : List Account) (ts : List Txn) (x : Nat) :
    signedTxnSum accs ts x =
      ((ts.filter (fun t => decide (t.accountId = x))).map
        (fun t => oDelta (typeAt accs x) t.type t.amount)).sum := by
  unfold signedTxnSum txnDelta
  congr 1
  apply List.map_congr_left
  intro t ht
  have : t.accountId = x := by
    have := List.of_mem_filter ht
    simpa using this
  rw [this]

theorem signedTxnSum_congr (accs1 accs2 : List Account) (ts : List Txn) (x : Nat)
    (h : typeAt accs1 x = typeAt accs2 x) :
    signedTxnSum accs1 ts x = signedTxnSum accs2 ts x := by
  rw [signedTxnSum_eq_fixed, signedTxnSum_eq_fixed, h]

theorem signedTxnSum_cons (accs : List Account) (t : Txn) (ts : List Txn) (x : Nat) :
    signedTxnSum accs (t :: ts) x =
      (if t.accountId = x then txnDelta accs t else 0) + signedTxnSum accs ts x := by
  unfold signedTxnSum
  rw [List.filter_cons]
  by_cases h : t.accountId = x <;> simp [h]

theorem signedTxnSum_append (accs : List Account) (ts1 ts2 : List Txn) (x : Nat) :
    signedTxnSum accs (ts1 ++ ts2) x = signedTxnSum accs ts1 x + signedTxnSum accs ts2 x := by
  unfold signedTxnSum
  simp [List.filter_append]

theorem txnDelta_mirror (accs : List Account) (cid rid : Nat) (now : DDate) (t : Txn) :
    txnDelta accs (mirrorTxn cid rid now t) = -(txnDelta accs t) := by
  unfold txnDelta mirrorTxn
  cases hty : typeAt accs t.accountId with
  | none => simp [oDelta]
  | some ty =>
    cases t.type <;> cases ty <;> simp [oDelta, lineDelta, debitPositive]

theorem signedTxnSum_map_mirror (accs : List Account) (cid rid : Nat) (now : DDate)
    (ts : List Txn) (x : Nat) :
    signedTxnSum accs (ts.map (mirrorTxn cid rid now)) x = -(signedTxnSum accs ts x) := by
  unfold signedTxnSum
  rw [List.filter_map]
  have hp : (fun t : Txn => decide (t.accountId = x)) ∘ mirrorTxn cid rid now =
      fun t : Txn => decide (t.accountId = x) := by
    funext t
    simp [mirrorTxn]
  rw [hp, List.map_map]
  have h2 : txnDelta accs ∘ mirrorTxn cid rid now = fun t => -(txnDelta accs t) := by
    funext t
    exact txnDelta_mirror accs cid rid now t
  rw [h2, sum_map_negQ]

theorem signedTxnSum_map_mkTxn (accs : List Account) (cid eid jid : Nat) (d : DDate)
    (desc : String) (lines : List LineInput) (x : Nat) :
    signedTxnSum accs (lines.map (mkTxn cid eid jid d desc)) x =
      linesSignedSum accs lines x := by
  rw [signedTxnSum_eq_fixed]
  unfold linesSignedSum
  rw [List.filter_map]
  have hp : (fun t : Txn => decide (t.accountId = x)) ∘ mkTxn cid eid jid d desc =
      fun l : LineInput => decide (l.accountId = x) := by
    funext l
    simp [mkTxn]
  rw [hp, List.map_map]
  rfl

/-! ### Posting-loop specification -/

theorem processLines_ok (cid eid jid : Nat) (d : DDate) (desc : String) :
    ∀ (lines : List LineInput) (accs : List Account) (out : List Txn)
      (accs' : List Account) (out' : List Txn),
      (accs.map (·.id)).Nodup →
      processLines cid eid jid d desc lines accs out = some (accs', out') →
      out' = out ++ lines.map (mkTxn cid eid jid d desc) ∧
      accs'.map (·.id) = accs.map (·.id) ∧
      (∀ x, typeAt accs' x = typeAt accs x) ∧
      (∀ x, balanceOf accs' x = balanceOf accs x + linesSignedSum accs lines x) := by
  intro lines
  induction lines with
  | nil =>
    intro accs out accs' out' hnd h
    simp only [processLines, Option.some.injEq, Prod.mk.injEq] at h
    obtain ⟨rfl, rfl⟩ := h
    exact ⟨by simp, rfl, fun x => rfl, fun x => by simp [linesSignedSum]⟩
  | cons l ls ih =>
    intro accs out accs' out' hnd h
    simp only [processLines] at h
    cases hf : findAccount accs cid eid l.accountId with
    | none =>
      rw [hf] at h
      simp at h
    | some a =>
      rw [hf] at h
      have hnd1 : ((applyDelta accs l.accountId
          (lineDelta a.accountType l.type l.amount)).map (·.id)).Nodup := by
        rw [ids_applyDelta]
        exact hnd
      obtain ⟨ho, hids, hty, hbal⟩ := ih _ _ _ _ hnd1 h
      have htyd : ∀ x, typeAt (applyDelta accs l.accountId
          (lineDelta a.accountType l.type l.amount)) x = typeAt accs x :=
        fun x => typeAt_applyDelta accs l.accountId _ x
      refine ⟨by rw [ho]; simp, by rw [hids, ids_applyDelta], ?_, ?_⟩
      · intro x
        rw [hty x, htyd x]
      · intro x
        rw [hbal x, balanceOf_applyDelta, linesSignedSum_congr _ accs ls x (htyd x),
          linesSignedSum_cons]
        by_cases hx : x = l.accountId
        · have hbyid : findAccountById accs x = some a := by
            rw [hx]
            exact findAccount_imp_findAccountById accs cid eid l.accountId a hnd hf
          have hsome : (findAccountById accs x).isSome = true := by
            rw [hbyid]
            rfl
          have htx : typeAt accs x = some a.accountType := by
            simp [typeAt, hbyid]
          rw [if_pos ⟨hx, hsome⟩, if_pos hx.symm, htx]
          simp [oDelta]
          ring
        · have hx2 : ¬(l.accountId = x) := fun hc => hx hc.symm
          rw [if_neg ?hc, if_neg hx2]
          · ring
          case hc =>
            intro hc
            exact hx hc.1

/-! ### Handler specifications -/

theorem postJournalEntry_ok_spec (s : St) (cid eid : Nat) (d : DDate) (desc : String)
    (lines : List LineInput) (s' : St)
    (hnd : (s.accounts.map (·.id)).Nodup)
    (h : postJournalEntry s cid eid d desc lines = .ok s') :
    s'.entities = s.entities ∧
    s'.entries = s.entries ++ [postHeader s cid eid d desc lines] ∧
    s'.txns = s.txns ++ lines.map (mkTxn cid eid s.nextId d desc) ∧
    s'.audits = s.audits + 1 ∧
    s'.nextId = s.nextId + 1 ∧
    s'.accounts.map (·.id) = s.accounts.map (·.id) ∧
    (∀ x, typeAt s'.accounts x = typeAt s.accounts x) ∧
    (∀ x, balanceOf s'.accounts x =
      balanceOf s.accounts x + linesSignedSum s.accounts lines x) := by
  rw [postJournalEntry] at h
  split at h
  · simp at h
  split at h
  · simp at h
  split at h
  · simp at h
  split at h
  · simp at h
  split at h
  · simp at h
  rename_i accs ts hpl
  obtain ⟨ho, hids, hty, hbal⟩ :=
    processLines_ok cid eid s.nextId d desc lines s.accounts [] accs ts hnd hpl
  have hs' := (Except.ok.inj h).symm
  subst hs'
  refine ⟨rfl, rfl, ?_, rfl, rfl, hids, hty, hbal⟩
  rw [ho]
  simp

theorem reverseJournalEntry_ok_spec (s : St) (cid jeid : Nat) (now : DDate) (s' : St)
    (h : reverseJournalEntry s cid jeid now = .ok s') :
    ∃ je, s.entries.find? (fun e => decide
        (e.id = jeid ∧ e.clientId = cid ∧ e.status ≠ JEStatus.reversed)) = some je ∧
      s'.entities = s.entities ∧
      s'.accounts = applyInverse s.accounts (txnsOf s jeid) ∧
      s'.entries = (s.entries.map (markReversed jeid s.nextId)) ++
        [revHeader je cid s.nextId now] ∧
      s'.txns = s.txns ++ (txnsOf s jeid).map (mirrorTxn cid s.nextId now) ∧
      s'.audits = s.audits + 1 ∧
      s'.nextId = s.nextId + 1 := by
  rw [reverseJournalEntry] at h
  split at h
  · simp at h
  rename_i je hje
  dsimp only at h
  split at h
  · simp at h
  have hs' := (Except.ok.inj h).symm
  subst hs'
  exact ⟨je, hje, rfl, rfl, rfl, rfl, rfl, rfl⟩

/-! ### Reversal balance lemmas -/

theorem applyInverse_ids : ∀ (ts : List Txn) (accs : List Account),
    (applyInverse accs ts).map (·.id) = accs.map (·.id)
  | [], accs => rfl
  | t :: ts, accs => by
    rw [applyInverse]
    cases h : findAccountById accs t.accountId with
    | none => exact applyInverse_ids ts accs
    | some a => rw [applyInverse_ids ts _, ids_applyDelta]

theorem applyInverse_typeAt : ∀ (ts : List Txn) (accs : List Account) (x : Nat),
    typeAt (applyInverse accs ts) x = typeAt accs x
  | [], accs, x => rfl
  | t :: ts, accs, x => by
    rw [applyInverse]
    cases h : findAccountById accs t.accountId with
    | none => exact applyInverse_typeAt ts accs x
    | some a => rw [applyInverse_typeAt ts _ x, typeAt_applyDelta]

theorem applyInverse_balanceOf : ∀ (ts : List Txn) (accs : List Account) (x : Nat),
    balanceOf (applyInverse accs ts) x = balanceOf accs x - signedTxnSum accs ts x
  | [], accs, x => by
    rw [applyInverse]
    unfold signedTxnSum
    simp
  | t :: ts, accs, x => by
    rw [applyInverse]
    cases h : findAccountById accs t.accountId with
    | none =>
      rw [applyInverse_balanceOf ts accs x, signedTxnSum_cons]
      have hz : txnDelta accs t = 0 := by
        simp [txnDelta, typeAt, h, oDelta]
      rw [hz]
      simp
    | some a =>
      rw [applyInverse_balanceOf ts _ x, balanceOf_applyDelta,
        signedTxnSum_congr _ accs ts x (typeAt_applyDelta accs t.accountId _ x),
        signedTxnSum_cons]
      by_cases hx : x = t.accountId
      · have hbyid : findAccountById accs x = some a := by
          rw [hx]
          exact h
        have hsome : (findAccountById accs x).isSome = true := by
          rw [hbyid]
          rfl
        have htx : txnDelta accs t = lineDelta a.accountType t.type t.amount := by
          simp [txnDelta, typeAt, h, oDelta]
        rw [if_pos ⟨hx, hsome⟩, if_pos hx.symm, htx, inverseDelta_eq_neg]
        ring
      · have hx2 : ¬(t.accountId = x) := fun hc => hx hc.symm
        rw [if_neg ?hc, if_neg hx2]
        · ring
        case hc =>
          intro hc
          exact hx hc.1

theorem processLines_ids (cid eid jid : Nat) (d : DDate) (desc : String) :
    ∀ (lines : List LineInput) (accs : List Account) (out : List Txn)
      (accs' : List Account) (out' : List Txn),
      processLines cid eid jid d desc lines accs out = some (accs', out') →
      accs'.map (·.id) = accs.map (·.id) := by
  intro lines
  induction lines with
  | nil =>
    intro accs out accs' out' h
    simp only [processLines, Option.some.injEq, Prod.mk.injEq] at h
    obtain ⟨rfl, -⟩ := h
    rfl
  | cons l ls ih =>
    intro accs out accs' out' h
    simp only [processLines] at h
    cases hf : findAccount accs cid eid l.accountId with
    | none =>
      rw [hf] at h
      simp at h
    | some a =>
      rw [hf] at h
      rw [ih _ _ _ _ h, ids_applyDelta]

theorem processLines_none (cid eid jid : Nat) (d : DDate) (desc : String) :
    ∀ (lines : List LineInput) (accs : List Account) (out : List Txn),
      (∃ l ∈ lines, findAccount accs cid eid l.accountId = none) →
      processLines cid eid jid d desc lines accs out = none := by
  intro lines
  induction lines with
  | nil =>
    rintro accs out ⟨l, hl, -⟩
    cases hl
  | cons l ls ih =>
    rintro accs out ⟨l0, hl0, hnone⟩
    simp only [processLines]
    cases hf : findAccount accs cid eid l.accountId with
    | none => rfl
    | some a =>
      rcases List.mem_cons.mp hl0 with rfl | hmem
      · rw [hf] at hnone
        cases hnone
      · apply ih
        refine ⟨l0, hmem, ?_⟩
        rw [findAccount_applyDelta, hnone]
        rfl

/-! ### C2: the unbalanced-entry check -/

/-- C2: a validated posting request against an owned entity is rejected
with the unbalanced error exactly when the absolute difference between
debit and credit totals exceeds 0.01, and any rejection leaves the durable
state exactly as it was (the session aborts before commit). -/
theorem c2_unbalanced_iff_and_rollback (s : St) (cid eid : Nat) (d : DDate) (desc : String)
    (lines : List LineInput)
    (hne : lines ≠ [])
    (hpos : ∀ l ∈ lines, 0 < l.amount)
    (hent : (s.entities.find? (fun e => decide (e.id = eid ∧ e.clientId = cid))).isSome = true) :
    ((postJournalEntry s cid eid d desc lines = .error PostErr.unbalanced) ↔
      |sumDebits lines - sumCredits lines| > (1 : ℚ)/100) ∧
    (∀ e, postJournalEntry s cid eid d desc lines = .error e →
      postResultState s cid eid d desc lines = s) := by
  constructor
  · rw [postJournalEntry]
    rw [if_neg (by simp [hne])]
    rw [if_neg (by
      intro hc
      rw [List.any_eq_true] at hc
      obtain ⟨l, hl, hle⟩ := hc
      rw [decide_eq_true_eq] at hle
      exact absurd hle (not_le.mpr (hpos l hl)))]
    obtain ⟨ent, hent2⟩ := Option.isSome_iff_exists.mp hent
    rw [hent2]
    by_cases hb : |sumDebits lines - sumCredits lines| > (1 : ℚ)/100
    · rw [if_pos hb]
      exact iff_of_true rfl hb
    · rw [if_neg hb]
      constructor
      · intro hcon
        cases hpl : processLines cid eid s.nextId d desc lines s.accounts [] with
        | none =>
          rw [hpl] at hcon
          cases hcon
        | some p =>
          obtain ⟨accs, ts⟩ := p
          rw [hpl] at hcon
          cases hcon
      · intro hcon
        exact absurd hcon hb
  · intro e he
    simp [postResultState, he]

/-- Witness for C2: a debit-100 / credit-50 request in the two-account
ledger is unbalanced and rejected, changing nothing. -/
theorem c2_witness :
    ([⟨1, 100, LineType.debit, none⟩, ⟨2, 50, LineType.credit, none⟩] : List LineInput) ≠ [] ∧
    (∀ l ∈ ([⟨1, 100, LineType.debit, none⟩, ⟨2, 50, LineType.credit, none⟩] : List LineInput),
      0 < l.amount) ∧
    (twoAccountLedger.entities.find? (fun e => decide (e.id = 1 ∧ e.clientId = 1))).isSome = true ∧
    (((postJournalEntry twoAccountLedger 1 1 scenarioADate "w" [⟨1, 100, LineType.debit, none⟩,
        ⟨2, 50, LineType.credit, none⟩] = .error PostErr.unbalanced) ↔
      |sumDebits [⟨1, 100, LineType.debit, none⟩, ⟨2, 50, LineType.credit, none⟩] -
        sumCredits [⟨1, 100, LineType.debit, none⟩, ⟨2, 50, LineType.credit, none⟩]| >
          (1 : ℚ)/100) ∧
    (∀ e, postJournalEntry twoAccountLedger 1 1 scenarioADate "w"
        [⟨1, 100, LineType.debit, none⟩, ⟨2, 50, LineType.credit, none⟩] = .error e →
      postResultState twoAccountLedger 1 1 scenarioADate "w"
        [⟨1, 100, LineType.debit, none⟩, ⟨2, 50, LineType.credit, none⟩] = twoAccountLedger)) :=
  ⟨by decide, by
      intro l hl
      fin_cases hl <;> norm_num, by decide,
    c2_unbalanced_iff_and_rollback twoAccountLedger 1 1 scenarioADate "w"
      [⟨1, 100, LineType.debit, none⟩, ⟨2, 50, LineType.credit, none⟩]
      (by decide)
      (by
        intro l hl
        fin_cases hl <;> norm_num)
      (by decide)⟩

/-! ### C3 (amended): atomicity of the transactional handler -/

/-- C3 (amended): the transactional POST /journal-entry handler is atomic —
on success all four effects are present (header appended, one transaction
row per line, signed balance deltas applied, audit entry appended), and on
any failure the durable state is exactly the state before the call.  The
legacy handler of part_022 violates the original claim (see the
counterexample): it persists per-line documents before its balance check. -/
theorem c3_transactional_post_atomic (s : St) (cid eid : Nat) (d : DDate) (desc : String)
    (lines : List LineInput) (hnd : (s.accounts.map (·.id)).Nodup) :
    (∀ s', postJournalEntry s cid eid d desc lines = .ok s' →
      s'.entries = s.entries ++ [postHeader s cid eid d desc lines] ∧
      s'.txns = s.txns ++ lines.map (mkTxn cid eid s.nextId d desc) ∧
      s'.audits = s.audits + 1 ∧
      (∀ x, balanceOf s'.accounts x =
        balanceOf s.accounts x + linesSignedSum s.accounts lines x)) ∧
    (∀ e, postJournalEntry s cid eid d desc lines = .error e →
      postResultState s cid eid d desc lines = s) := by
  constructor
  · intro s' h
    obtain ⟨-, h2, h3, h4, -, -, -, h8⟩ :=
      postJournalEntry_ok_spec s cid eid d desc lines s' hnd h
    exact ⟨h2, h3, h4, h8⟩
  · intro e he
    simp [postResultState, he]

/-- Witness for C3 at the two-account ledger and the Scenario-A request. -/
theorem c3_witness :
    (twoAccountLedger.accounts.map (·.id)).Nodup ∧
    ((∀ s', postJournalEntry twoAccountLedger 1 1 scenarioADate "Scenario A" scenarioALines = .ok s' →
      s'.entries = twoAccountLedger.entries ++
        [postHeader twoAccountLedger 1 1 scenarioADate "Scenario A" scenarioALines] ∧
      s'.txns = twoAccountLedger.txns ++
        scenarioALines.map (mkTxn 1 1 twoAccountLedger.nextId scenarioADate "Scenario A") ∧
      s'.audits = twoAccountLedger.audits + 1 ∧
      (∀ x, balanceOf s'.accounts x = balanceOf twoAccountLedger.accounts x +
        linesSignedSum twoAccountLedger.accounts scenarioALines x)) ∧
    (∀ e, postJournalEntry twoAccountLedger 1 1 scenarioADate "Scenario A" scenarioALines =
        .error e →
      postResultState twoAccountLedger 1 1 scenarioADate "Scenario A" scenarioALines =
        twoAccountLedger)) :=
  ⟨by decide,
    c3_transactional_post_atomic twoAccountLedger 1 1 scenarioADate "Scenario A" scenarioALines
      (by decide)⟩

/-! ### C7 (amended): no auto-provisioning in the transactional handler -/

/-- C7 (amended): the transactional POST /journal-entry handler never
creates an account — a successful posting leaves the set of account ids
unchanged — and a request in which some line references an account that
does not exist for the posting client and entity never succeeds.  The
legacy handler of part_022 violates the original claim (see the
counterexample): it silently provisions unknown account numbers with no
opt-in flag. -/
theorem c7_transactional_post_never_provisions (s : St) (cid eid : Nat) (d : DDate)
    (desc : String) (lines : List LineInput) :
    (∀ s', postJournalEntry s cid eid d desc lines = .ok s' →
      s'.accounts.map (·.id) = s.accounts.map (·.id)) ∧
    ((∃ l ∈ lines, findAccount s.accounts cid eid l.accountId = none) →
      ∀ s', postJournalEntry s cid eid d desc lines ≠ .ok s') := by
  constructor
  · intro s' h
    rw [postJournalEntry] at h
    split at h
    · simp at h
    split at h
    · simp at h
    split at h
    · simp at h
    split at h
    · simp at h
    split at h
    · simp at h
    rename_i accs ts hpl
    have hs' := (Except.ok.inj h).symm
    subst hs'
    exact processLines_ids cid eid s.nextId d desc lines s.accounts [] accs ts hpl
  · intro hmiss s' hok
    rw [postJournalEntry] at hok
    split at hok
    · simp at hok
    split at hok
    · simp at hok
    split at hok
    · simp at hok
    split at hok
    · simp at hok
    split at hok
    · simp at hok
    rename_i accs ts hpl
    rw [processLines_none cid eid s.nextId d desc lines s.accounts [] hmiss] at hpl
    cases hpl

/-- Witness for C7: a balanced request whose debit line references the
unknown account id 9 is rejected by the transactional handler, and
successful postings never change the account ids. -/
theorem c7_witness :
    (∃ l ∈ ([⟨9, 100, LineType.debit, none⟩, ⟨2, 100, LineType.credit, none⟩] : List LineInput),
      findAccount twoAccountLedger.accounts 1 1 l.accountId = none) ∧
    ((∀ s', postJournalEntry twoAccountLedger 1 1 scenarioADate "w"
        [⟨9, 100, LineType.debit, none⟩, ⟨2, 100, LineType.credit, none⟩] = .ok s' →
      s'.accounts.map (·.id) = twoAccountLedger.accounts.map (·.id)) ∧
    ((∃ l ∈ ([⟨9, 100, LineType.debit, none⟩, ⟨2, 100, LineType.credit, none⟩] : List LineInput),
        findAccount twoAccountLedger.accounts 1 1 l.accountId = none) →
      ∀ s', postJournalEntry twoAccountLedger 1 1 scenarioADate "w"
        [⟨9, 100, LineType.debit, none⟩, ⟨2, 100, LineType.credit, none⟩] ≠ .ok s')) :=
  ⟨⟨⟨9, 100, LineType.debit, none⟩, by decide, by decide⟩,
    c7_transactional_post_never_provisions twoAccountLedger 1 1 scenarioADate "w"
      [⟨9, 100, LineType.debit, none⟩, ⟨2, 100, LineType.credit, none⟩]⟩

/-! ### C5 (amended): reversal eligibility -/

/-- C5 (amended): reverseJournalEntry fails with not-found both when no
entry of the client carries the id and when every such entry is already
reversed — in particular reversing the same entry twice fails the second
time.  Contrary to the original claim, an entry that is itself a reversal
is not protected (see the counterexample): the eligibility filter checks
only ownership and status ≠ reversed, never reversalOf. -/
theorem c5_reversal_eligibility (s : St) (cid jeid : Nat) (now now2 : DDate)
    (hb : ∀ e ∈ s.entries, e.id < s.nextId) :
    ((∀ e ∈ s.entries, e.id = jeid → e.clientId = cid → e.status = JEStatus.reversed) →
      reverseJournalEntry s cid jeid now = .error RevErr.notFound) ∧
    (∀ s', reverseJournalEntry s cid jeid now = .ok s' →
      reverseJournalEntry s' cid jeid now2 = .error RevErr.notFound) := by
  constructor
  · intro hall
    rw [reverseJournalEntry]
    have hnone : s.entries.find? (fun e => decide
        (e.id = jeid ∧ e.clientId = cid ∧ e.status ≠ JEStatus.reversed)) = none := by
      rw [List.find?_eq_none]
      intro e he
      simp only [decide_eq_true_eq]
      rintro ⟨h1, h2, h3⟩
      exact h3 (hall e he h1 h2)
    rw [hnone]
  · intro s' h
    obtain ⟨je, hje, -, -, hent, -, -, -⟩ := reverseJournalEntry_ok_spec s cid jeid now s' h
    rw [reverseJournalEntry]
    have hnone : s'.entries.find? (fun e => decide
        (e.id = jeid ∧ e.clientId = cid ∧ e.status ≠ JEStatus.reversed)) = none := by
      rw [List.find?_eq_none]
      intro e he
      rw [hent] at he
      rcases List.mem_append.mp he with hmem | hmem
      · obtain ⟨e0, he0, rfl⟩ := List.mem_map.mp hmem
        by_cases hid : e0.id = jeid
        · simp [markReversed, hid]
        · simp [markReversed, hid]
      · rw [List.mem_singleton] at hmem
        subst hmem
        have hjmem : je ∈ s.entries := List.mem_of_find?_eq_some hje
        have hjid : je.id = jeid := by
          have := List.find?_some hje
          simp only [decide_eq_true_eq] at this
          exact this.1
        have hlt : jeid < s.nextId := hjid ▸ hb je hjmem
        simp only [revHeader, decide_eq_true_eq]
        rintro ⟨h1, -, -⟩
        omega
    rw [hnone]

/-- Witness for C5 at the hand-written one-entry ledger. -/
theorem c5_witness :
    (∀ e ∈ c5wLedger.entries, e.id < c5wLedger.nextId) ∧
    (((∀ e ∈ c5wLedger.entries, e.id = 3 → e.clientId = 1 → e.status = JEStatus.reversed) →
      reverseJournalEntry c5wLedger 1 3 ⟨2025, 1, 2⟩ = .error RevErr.notFound) ∧
    (∀ s', reverseJournalEntry c5wLedger 1 3 ⟨2025, 1, 2⟩ = .ok s' →
      reverseJournalEntry s' 1 3 ⟨2025, 1, 3⟩ = .error RevErr.notFound)) :=
  ⟨by decide, c5_reversal_eligibility c5wLedger 1 3 ⟨2025, 1, 2⟩ ⟨2025, 1, 3⟩ (by decide)⟩

/-! ### C4: reversal mirrors lines and restores balances -/

/-- C4: posting an entry and then reversing it marks the original entry
reversed with a back-reference to the reversal, creates the reversal entry
(status posted, reversalOf pointing back), whose transaction rows mirror
the original's with debit and credit swapped and amounts unchanged, so the
two entries' lines net to zero per account and every stored balance
returns to its value before the posting. -/
theorem c4_reversal_mirrors_and_restores (s0 s1 s2 : St) (cid eid : Nat)
    (d now : DDate) (desc : String) (lines : List LineInput)
    (hnd : (s0.accounts.map (·.id)).Nodup)
    (htb : ∀ t ∈ s0.txns, t.journalEntryId < s0.nextId)
    (hpost : postJournalEntry s0 cid eid d desc lines = .ok s1)
    (hrev : reverseJournalEntry s1 cid s0.nextId now = .ok s2) :
    (∀ x, balanceOf s2.accounts x = balanceOf s0.accounts x) ∧
    (∃ e ∈ s2.entries, e.id = s0.nextId ∧ e.status = JEStatus.reversed ∧
      e.reversedBy = some s1.nextId) ∧
    (∃ r ∈ s2.entries, r.id = s1.nextId ∧ r.status = JEStatus.posted ∧
      r.reversalOf = some s0.nextId) ∧
    txnsOf s2 s1.nextId = (txnsOf s1 s0.nextId).map (mirrorTxn cid s1.nextId now) ∧
    (∀ x, signedTxnSum s2.accounts (txnsOf s2 s0.nextId) x +
      signedTxnSum s2.accounts (txnsOf s2 s1.nextId) x = 0) := by
  obtain ⟨-, hpent, hptx, -, hpnext, hpids, hpty, hpbal⟩ :=
    postJournalEntry_ok_spec s0 cid eid d desc lines s1 hnd hpost
  obtain ⟨je, hje, -, hracc, hrentries, hrtx, -, -⟩ :=
    reverseJournalEntry_ok_spec s1 cid s0.nextId now s2 hrev
  have hjid : je.id = s0.nextId := by
    have := List.find?_some hje
    simp only [decide_eq_true_eq] at this
    exact this.1
  have hT1 : txnsOf s1 s0.nextId = lines.map (mkTxn cid eid s0.nextId d desc) := by
    unfold txnsOf
    rw [hptx, List.filter_append]
    rw [List.filter_eq_nil_iff.mpr ?h1, List.filter_eq_self.mpr ?h2]
    · simp
    case h1 =>
      intro t ht
      have := htb t ht
      simp only [decide_eq_true_eq]
      omega
    case h2 =>
      intro t ht
      obtain ⟨l, -, rfl⟩ := List.mem_map.mp ht
      simp [mkTxn]
  have hT2 : txnsOf s2 s1.nextId = (txnsOf s1 s0.nextId).map (mirrorTxn cid s1.nextId now) := by
    unfold txnsOf
    rw [hrtx, List.filter_append]
    rw [List.filter_eq_nil_iff.mpr ?h3, List.filter_eq_self.mpr ?h4]
    · simp [txnsOf]
    case h3 =>
      intro t ht
      rw [hptx] at ht
      simp only [decide_eq_true_eq]
      rcases List.mem_append.mp ht with hmem | hmem
      · have := htb t hmem
        omega
      · obtain ⟨l, -, rfl⟩ := List.mem_map.mp hmem
        simp only [mkTxn]
        omega
    case h4 =>
      intro t ht
      obtain ⟨t0, -, rfl⟩ := List.mem_map.mp ht
      simp [mirrorTxn]
  have hT3 : txnsOf s2 s0.nextId = txnsOf s1 s0.nextId := by
    have hm : (List.map (mirrorTxn cid s1.nextId now) (txnsOf s1 s0.nextId)).filter
        (fun t => decide (t.journalEntryId = s0.nextId)) = [] := by
      rw [List.filter_eq_nil_iff]
      intro t ht
      obtain ⟨t0, -, rfl⟩ := List.mem_map.mp ht
      simp only [mirrorTxn, decide_eq_true_eq]
      omega
    unfold txnsOf
    rw [hrtx, List.filter_append, hm]
    simp [txnsOf]
  have hbal2 : ∀ x, balanceOf s2.accounts x = balanceOf s0.accounts x := by
    intro x
    rw [hracc, applyInverse_balanceOf, hpbal x, hT1,
      signedTxnSum_congr s1.accounts s0.accounts _ x (hpty x),
      signedTxnSum_map_mkTxn]
    ring
  refine ⟨hbal2, ?_, ?_, hT2, ?_⟩
  · refine ⟨markReversed s0.nextId s1.nextId (postHeader s0 cid eid d desc lines), ?_, ?_⟩
    · rw [hrentries]
      apply List.mem_append_left
      apply List.mem_map_of_mem
      rw [hpent]
      simp
    · simp [markReversed, postHeader]
  · refine ⟨revHeader je cid s1.nextId now, ?_, ?_⟩
    · rw [hrentries]
      apply List.mem_append_right
      simp
    · simp [revHeader, hjid]
  · intro x
    rw [hT3, hT2, signedTxnSum_map_mirror]
    ring

/-- Witness for C4: the Scenario-A posting followed by its reversal. -/
theorem c4_witness :
    (twoAccountLedger.accounts.map (·.id)).Nodup ∧
    (∀ t ∈ twoAccountLedger.txns, t.journalEntryId < twoAccountLedger.nextId) ∧
    postJournalEntry twoAccountLedger 1 1 scenarioADate "Scenario A" scenarioALines =
      .ok c4afterPost ∧
    reverseJournalEntry c4afterPost 1 twoAccountLedger.nextId ⟨2025, 1, 2⟩ =
      .ok c4afterReverse ∧
    ((∀ x, balanceOf c4afterReverse.accounts x = balanceOf twoAccountLedger.accounts x) ∧
    (∃ e ∈ c4afterReverse.entries, e.id = twoAccountLedger.nextId ∧
      e.status = JEStatus.reversed ∧ e.reversedBy = some c4afterPost.nextId) ∧
    (∃ r ∈ c4afterReverse.entries, r.id = c4afterPost.nextId ∧
      r.status = JEStatus.posted ∧ r.reversalOf = some twoAccountLedger.nextId) ∧
    txnsOf c4afterReverse c4afterPost.nextId =
      (txnsOf c4afterPost twoAccountLedger.nextId).map
        (mirrorTxn 1 c4afterPost.nextId ⟨2025, 1, 2⟩) ∧
    (∀ x, signedTxnSum c4afterReverse.accounts (txnsOf c4afterReverse twoAccountLedger.nextId) x +
      signedTxnSum c4afterReverse.accounts (txnsOf c4afterReverse c4afterPost.nextId) x = 0)) := by
  have h1 : (twoAccountLedger.accounts.map (·.id)).Nodup := by decide
  have h2 : ∀ t ∈ twoAccountLedger.txns, t.journalEntryId < twoAccountLedger.nextId := by
    decide
  have h3 : postJournalEntry twoAccountLedger 1 1 scenarioADate "Scenario A" scenarioALines =
      .ok c4afterPost := by
    norm_num +decide [c4afterPost, postResultState, postJournalEntry, twoAccountLedger,
      scenarioALines, scenarioADate, sumDebits, sumCredits, processLines, findAccount,
      applyDelta, lineDelta, debitPositive, mkTxn, postHeader, entryNumberOf, padNum,
      List.filter_cons, List.filter_nil, List.sum_cons, List.sum_nil, List.map_cons,
      List.map_nil, List.find?_cons, List.find?_nil, List.any_cons, List.any_nil]
  have h4 : reverseJournalEntry c4afterPost 1 twoAccountLedger.nextId ⟨2025, 1, 2⟩ =
      .ok c4afterReverse := by
    norm_num +decide [c4afterReverse, c4afterPost, postResultState, postJournalEntry,
      twoAccountLedger, scenarioALines, scenarioADate, sumDebits, sumCredits, processLines,
      findAccount, applyDelta, lineDelta, debitPositive, mkTxn, postHeader, entryNumberOf,
      padNum, reverseJournalEntry, txnsOf, findAccountById, applyInverse, inverseDelta,
      mirrorTxn, revHeader, markReversed, List.filter_cons, List.filter_nil, List.sum_cons,
      List.sum_nil, List.map_cons, List.map_nil, List.find?_cons, List.find?_nil,
      List.any_cons, List.any_nil]
  have h4' : reverseJournalEntry c4afterPost 1 twoAccountLedger.nextId ⟨2025, 1, 2⟩ =
      .ok c4afterReverse := h4
  exact ⟨h1, h2, h3, h4,
    c4_reversal_mirrors_and_restores twoAccountLedger c4afterPost c4afterReverse 1 1
      scenarioADate ⟨2025, 1, 2⟩ "Scenario A" scenarioALines h1 h2 h3 h4'⟩

/-! ### C1: the running-balance invariant -/

theorem reach_nodup (s : St) (h : Reach s) : (s.accounts.map (·.id)).Nodup := by
  induction h with
  | init s hb ht he hn hacc => exact hn
  | post s s' cid eid d desc lines hs hp ih =>
    obtain ⟨-, -, -, -, -, hids, -, -⟩ :=
      postJournalEntry_ok_spec s cid eid d desc lines s' ih hp
    rw [hids]
    exact ih
  | reverse s s' cid jeid now hs hr ih =>
    obtain ⟨je, -, -, hracc, -, -, -, -⟩ :=
      reverseJournalEntry_ok_spec s cid jeid now s' hr
    rw [hracc, applyInverse_ids]
    exact ih

theorem reach_balance_inv (s : St) (h : Reach s) :
    ∀ x, balanceOf s.accounts x = signedTxnSum s.accounts s.txns x := by
  induction h with
  | init s hb ht he hn hacc =>
    intro x
    rw [ht]
    unfold signedTxnSum
    simp only [List.filter_nil, List.map_nil, List.sum_nil]
    unfold balanceOf
    cases hf : findAccountById s.accounts x with
    | none => rfl
    | some a => exact hb a (List.mem_of_find?_eq_some hf)
  | post s s' cid eid d desc lines hs hp ih =>
    intro x
    have hnd := reach_nodup s hs
    obtain ⟨-, -, hptx, -, -, -, hpty, hpbal⟩ :=
      postJournalEntry_ok_spec s cid eid d desc lines s' hnd hp
    rw [hpbal x, hptx, signedTxnSum_append,
      signedTxnSum_congr s'.accounts s.accounts s.txns x (hpty x),
      signedTxnSum_congr s'.accounts s.accounts
        (lines.map (mkTxn cid eid s.nextId d desc)) x (hpty x),
      signedTxnSum_map_mkTxn, ih x]
  | reverse s s' cid jeid now hs hr ih =>
    intro x
    obtain ⟨je, hje, -, hracc, -, hrtx, -, -⟩ :=
      reverseJournalEntry_ok_spec s cid jeid now s' hr
    have hty2 := applyInverse_typeAt (txnsOf s jeid) s.accounts x
    rw [hracc, applyInverse_balanceOf, hrtx, signedTxnSum_append,
      signedTxnSum_congr (applyInverse s.accounts (txnsOf s jeid)) s.accounts s.txns x hty2,
      signedTxnSum_congr (applyInverse s.accounts (txnsOf s jeid)) s.accounts
        ((txnsOf s jeid).map (mirrorTxn cid s.nextId now)) x hty2,
      signedTxnSum_map_mirror, ih x]
    ring

/-- C1 (amended): in every state reachable by postings and reversals from
a fresh ledger, each account's stored balance equals the signed sum of all
stored transaction lines against it — including the lines of reversed
entries and of their mirroring reversal entries, which cancel pairwise.
Restricting the sum to posted, non-reversed entries is refuted by the
counterexample. -/
theorem c1_balance_is_signed_sum_of_all_lines (s : St) (hs : Reach s)
    (a : Account) (ha : a ∈ s.accounts) :
    a.balance = signedTxnSum s.accounts s.txns a.id := by
  have hinv := reach_balance_inv s hs a.id
  have hnd := reach_nodup s hs
  rw [← hinv]
  unfold balanceOf
  rw [findAccountById_eq_of_mem s.accounts a hnd ha]

/-- Witness for C1 at the fresh two-account ledger. -/
theorem c1_witness :
    Reach twoAccountLedger ∧
    (⟨1, 1, 1, "1000", "Cash", AccountType.asset, true, 0⟩ : Account) ∈
      twoAccountLedger.accounts ∧
    (⟨1, 1, 1, "1000", "Cash", AccountType.asset, true, 0⟩ : Account).balance =
      signedTxnSum twoAccountLedger.accounts twoAccountLedger.txns 1 := by
  have hreach : Reach twoAccountLedger :=
    Reach.init twoAccountLedger
      (by
        intro a ha
        fin_cases ha <;> rfl)
      rfl rfl (by decide) (by decide)
  have hmem : (⟨1, 1, 1, "1000", "Cash", AccountType.asset, true, 0⟩ : Account) ∈
      twoAccountLedger.accounts := List.Mem.head _
  exact ⟨hreach, hmem,
    c1_balance_is_signed_sum_of_all_lines twoAccountLedger hreach _ hmem⟩

/-! ### C6: the balance-sheet identity -/

theorem insertByNumber_perm (a : Account) (l : List Account) :
    (insertByNumber a l).Perm (a :: l) := by
  induction l with
  | nil => exact List.Perm.refl _
  | cons b bs ih =>
    rw [insertByNumber]
    split
    · exact List.Perm.refl _
    · exact (ih.cons b).trans (List.Perm.swap a b bs)

theorem sortByNumber_perm (l : List Account) : (sortByNumber l).Perm l := by
  induction l with
  | nil => exact List.Perm.refl _
  | cons a rest ih =>
    rw [sortByNumber]
    exact (insertByNumber_perm a (sortByNumber rest)).trans (ih.cons a)

theorem nodup_id_unique (l : List Account) (hnd : (l.map (·.id)).Nodup)
    (a b : Account) (ha : a ∈ l) (hb : b ∈ l) (hid : a.id = b.id) : a = b := by
  induction l with
  | nil => cases ha
  | cons c cs ih =>
    have hnd2 := List.nodup_cons.mp hnd
    rcases List.mem_cons.mp ha with rfl | ha2
    · rcases List.mem_cons.mp hb with rfl | hb2
      · rfl
      · have hmm : b.id ∈ cs.map (·.id) := List.mem_map_of_mem _ hb2
        rw [← hid] at hmm
        exact absurd hmm hnd2.1
    · rcases List.mem_cons.mp hb with rfl | hb2
      · have hmm : a.id ∈ cs.map (·.id) := List.mem_map_of_mem _ ha2
        rw [hid] at hmm
        exact absurd hmm hnd2.1
      · exact ih hnd2.2 ha2 hb2

theorem debits_sub_credits (ts : List Txn) :
    debitsTotal ts - creditsTotal ts = (ts.map dcAmount).sum := by
  induction ts with
  | nil => simp [debitsTotal, creditsTotal]
  | cons t ts ih =>
    cases ht : t.type
    · have hd : dcAmount t = t.amount := by simp [dcAmount, ht]
      unfold debitsTotal creditsTotal at ih ⊢
      simp [List.filter_cons, ht]
      linarith [ih, hd]
    · have hd : dcAmount t = -t.amount := by simp [dcAmount, ht]
      unfold debitsTotal creditsTotal at ih ⊢
      simp [List.filter_cons, ht]
      linarith [ih, hd]

theorem sum_map_filter_add {β : Type} (l : List β) (p : β → Bool) (f : β → ℚ) :
    ((l.filter p).map f).sum + ((l.filter (fun b => !p b)).map f).sum = (l.map f).sum := by
  induction l with
  | nil => simp
  | cons b l ih =>
    cases hb : p b <;> simp [List.filter_cons, hb] <;> linarith [ih]

theorem sum_single_hit (accs : List Account) (x : Nat) (c : ℚ)
    (hnd : (accs.map (·.id)).Nodup) (a0 : Account) (ha0 : a0 ∈ accs) (hid : a0.id = x) :
    (accs.map (fun a => if x = a.id then c else 0)).sum = c := by
  induction accs with
  | nil => cases ha0
  | cons b l ih =>
    have hnd2 := List.nodup_cons.mp hnd
    rcases List.mem_cons.mp ha0 with rfl | hmem
    · have hzero : (l.map (fun a => if x = a.id then c else 0)).sum = 0 := by
        have : ∀ a ∈ l, (if x = a.id then c else 0) = 0 := by
          intro a ha
          rw [if_neg]
          intro he
          have hmm : a.id ∈ l.map (·.id) := List.mem_map_of_mem _ ha
          rw [← he, ← hid] at hmm
          exact hnd2.1 hmm
        rw [List.map_congr_left this]
        simp
      simp [hid, hzero]
    · have hb : ¬(x = b.id) := by
        intro he
        have hmm : a0.id ∈ l.map (·.id) := List.mem_map_of_mem _ hmem
        rw [hid, he] at hmm
        exact hnd2.1 hmm
      simp only [List.map_cons, List.sum_cons, if_neg hb]
      rw [ih hnd2.2 hmem]
      ring

theorem sum_per_account_eq (accs : List Account) (ts : List Txn)
    (hnd : (accs.map (·.id)).Nodup)
    (hcov : ∀ t ∈ ts, ∃ a ∈ accs, a.id = t.accountId) :
    (accs.map (fun a =>
      ((ts.filter (fun t => decide (t.accountId = a.id))).map dcAmount).sum)).sum =
      (ts.map dcAmount).sum := by
  induction ts with
  | nil => simp
  | cons t ts ih =>
    have hcov2 : ∀ u ∈ ts, ∃ a ∈ accs, a.id = u.accountId :=
      fun u hu => hcov u (List.mem_cons_of_mem _ hu)
    obtain ⟨a0, ha0, hid0⟩ := hcov t (List.mem_cons_self t ts)
    have hsplit : ∀ a ∈ accs,
        ((List.filter (fun u => decide (u.accountId = a.id)) (t :: ts)).map dcAmount).sum =
          (if t.accountId = a.id then dcAmount t else 0) +
            ((ts.filter (fun u => decide (u.accountId = a.id))).map dcAmount).sum := by
      intro a _
      rw [List.filter_cons]
      by_cases h : t.accountId = a.id <;> simp [h]
    rw [List.map_congr_left hsplit, sum_map_addQ, ih hcov2,
      sum_single_hit accs t.accountId (dcAmount t) hnd a0 ha0 (by rw [hid0]),
      List.map_cons, List.sum_cons]

theorem filter_and_redundant {β : Type} (l : List β) (q p : β → Bool)
    (h : ∀ b ∈ l, q b = true → p b = true) :
    l.filter (fun b => q b && p b) = l.filter q := by
  apply List.filter_congr
  intro b hb
  cases hq : q b
  · simp
  · simp [h b hb hq]

theorem sum_bucket_join (A : List Account) (F : Account → ℚ)
    (hALE : ∀ a ∈ A, a.accountType = AccountType.asset ∨
      a.accountType = AccountType.liability ∨ a.accountType = AccountType.equity) :
    ((A.filter (fun a => decide (a.accountType = AccountType.asset))).map F).sum +
    ((A.filter (fun a => decide (a.accountType = AccountType.liability))).map F).sum +
    ((A.filter (fun a => decide (a.accountType = AccountType.equity))).map F).sum =
    (A.map F).sum := by
  have h1 := sum_map_filter_add A (fun a => decide (a.accountType = AccountType.asset)) F
  have h2 := sum_map_filter_add
    (A.filter (fun a => !decide (a.accountType = AccountType.asset)))
    (fun a => decide (a.accountType = AccountType.liability)) F
  have e1 : (A.filter (fun a => !decide (a.accountType = AccountType.asset))).filter
      (fun a => decide (a.accountType = AccountType.liability)) =
      A.filter (fun a => decide (a.accountType = AccountType.liability)) := by
    rw [List.filter_filter]
    apply List.filter_congr
    intro a ha
    cases hty : a.accountType <;> simp [hty]
  have e2 : (A.filter (fun a => !decide (a.accountType = AccountType.asset))).filter
      (fun a => !decide (a.accountType = AccountType.liability)) =
      A.filter (fun a => decide (a.accountType = AccountType.equity)) := by
    rw [List.filter_filter]
    apply List.filter_congr
    intro a ha
    rcases hALE a ha with h | h | h <;> simp [h]
  rw [e1, e2] at h2
  linarith [h1, h2]

theorem sum_per_account_to_covered (A : List Account) (T : List Txn)
    (hndA : (A.map (·.id)).Nodup) :
    (A.map (fun a =>
      ((T.filter (fun t => decide (t.accountId = a.id))).map dcAmount).sum)).sum =
      ((T.filter (fun t => A.any (fun a => decide (a.id = t.accountId)))).map dcAmount).sum := by
  have hpoint : ∀ a ∈ A,
      ((T.filter (fun t => decide (t.accountId = a.id))).map dcAmount).sum =
      (((T.filter (fun t => A.any (fun a2 => decide (a2.id = t.accountId)))).filter
        (fun t => decide (t.accountId = a.id))).map dcAmount).sum := by
    intro a ha
    rw [List.filter_filter]
    rw [filter_and_redundant T _ _ ?_]
    intro t ht hdec
    rw [decide_eq_true_eq] at hdec
    rw [List.any_eq_true]
    exact ⟨a, ha, by simp [hdec]⟩
  rw [List.map_congr_left hpoint]
  apply sum_per_account_eq A _ hndA
  intro t ht
  have := List.of_mem_filter ht
  rw [List.any_eq_true] at this
  obtain ⟨a, ha, hdec⟩ := this
  rw [decide_eq_true_eq] at hdec
  exact ⟨a, ha, hdec⟩

theorem bsAccounts_mem (s : St) (cid eid : Nat) (a : Account) :
    a ∈ bsAccounts s cid eid ↔
      a ∈ s.accounts ∧ a.clientId = cid ∧ a.entityId = eid ∧ a.isActive = true ∧
        (a.accountType = AccountType.asset ∨ a.accountType = AccountType.liability ∨
          a.accountType = AccountType.equity) := by
  unfold bsAccounts
  rw [(sortByNumber_perm _).mem_iff, List.mem_filter]
  simp [and_assoc]

theorem incomeAccountsOf_mem (s : St) (cid eid : Nat) (a : Account) :
    a ∈ incomeAccountsOf s cid eid ↔
      a ∈ s.accounts ∧ a.clientId = cid ∧ a.entityId = eid ∧ a.isActive = true ∧
        (a.accountType = AccountType.revenue ∨ a.accountType = AccountType.expense) := by
  unfold incomeAccountsOf
  rw [List.mem_filter]
  simp [and_assoc]

theorem bsAccounts_nodup (s : St) (cid eid : Nat)
    (hnd : (s.accounts.map (·.id)).Nodup) :
    ((bsAccounts s cid eid).map (·.id)).Nodup := by
  unfold bsAccounts
  refine (((sortByNumber_perm _).map (·.id)).nodup_iff).mpr ?_
  exact List.Nodup.sublist ((List.filter_sublist _).map _) hnd

theorem incomeAccountsOf_nodup (s : St) (cid eid : Nat)
    (hnd : (s.accounts.map (·.id)).Nodup) :
    ((incomeAccountsOf s cid eid).map (·.id)).Nodup := by
  unfold incomeAccountsOf
  exact List.Nodup.sublist ((List.filter_sublist _).map _) hnd

/-- C6 (amended): over a history of exactly balanced entries whose
Revenue/Expense activity all falls inside the as-of calendar year, with
every transaction's account existing, active and owned by the entity, the
balance sheet satisfies assets = liabilities + equity + netIncome exactly.
Each restriction is forced by the corresponding part of the counterexample:
the year restriction by prior-year income (neither in the year-to-date net
income nor closed into equity), the active-account restriction by a posted
entry whose account is later deactivated (the report queries filter
isActive while transactions persist), and exact balance by accumulation of
the per-entry 0.01 posting tolerance past the report tolerance. -/
theorem c6_balance_sheet_identity (s : St) (cid eid : Nat) (asOf : DDate)
    (hnd : (s.accounts.map (·.id)).Nodup)
    (hcov : ∀ t ∈ s.txns, t.clientId = cid → t.entityId = eid →
      ∃ a ∈ s.accounts, a.id = t.accountId ∧ a.clientId = cid ∧ a.entityId = eid ∧
        a.isActive = true)
    (hbal : ((bsTxns s cid eid asOf).map dcAmount).sum = 0)
    (hytd : ∀ t ∈ s.txns, t.clientId = cid → t.entityId = eid →
      (∀ a ∈ s.accounts, a.id = t.accountId →
        (a.accountType = AccountType.revenue ∨ a.accountType = AccountType.expense)) →
      DDate.ble (yearStartOf asOf) t.date = true) :
    (getBalanceSheet s cid eid asOf).totals.assets =
      (getBalanceSheet s cid eid asOf).totals.liabilitiesAndEquity := by
  have hndA := bsAccounts_nodup s cid eid hnd
  have hndI := incomeAccountsOf_nodup s cid eid hnd
  have hRows : ∀ ty : AccountType,
      (bsRows s cid eid asOf).filter (fun r => decide (r.accountType = ty)) =
      ((bsAccounts s cid eid).filter (fun a => decide (a.accountType = ty))).map
        (bsRowOf (bsTxns s cid eid asOf)) := by
    intro ty
    unfold bsRows
    rw [List.filter_map]
    rfl
  have hasset : (((bsRows s cid eid asOf).filter
        (fun r => decide (r.accountType = AccountType.asset))).map (·.balance)).sum =
      (((bsAccounts s cid eid).filter
        (fun a => decide (a.accountType = AccountType.asset))).map
        (fun a => (((bsTxns s cid eid asOf).filter
          (fun t => decide (t.accountId = a.id))).map dcAmount).sum)).sum := by
    rw [hRows, List.map_map]
    apply congrArg List.sum
    apply List.map_congr_left
    intro a ha
    have hty : a.accountType = AccountType.asset := by
      have := List.of_mem_filter ha
      simpa using this
    show (bsRowOf (bsTxns s cid eid asOf) a).balance = _
    dsimp only [bsRowOf]
    rw [if_pos hty]
    exact debits_sub_credits _
  have hliab : (((bsRows s cid eid asOf).filter
        (fun r => decide (r.accountType = AccountType.liability))).map (·.balance)).sum =
      -((((bsAccounts s cid eid).filter
        (fun a => decide (a.accountType = AccountType.liability))).map
        (fun a => (((bsTxns s cid eid asOf).filter
          (fun t => decide (t.accountId = a.id))).map dcAmount).sum)).sum) := by
    rw [hRows, List.map_map]
    rw [List.map_congr_left (g := fun a => -((((bsTxns s cid eid asOf).filter
      (fun t => decide (t.accountId = a.id))).map dcAmount).sum)) ?_, sum_map_negQ]
    intro a ha
    have hty : a.accountType = AccountType.liability := by
      have := List.of_mem_filter ha
      simpa using this
    show (bsRowOf (bsTxns s cid eid asOf) a).balance = _
    dsimp only [bsRowOf]
    rw [if_neg (by simp [hty])]
    have := debits_sub_credits ((bsTxns s cid eid asOf).filter
      (fun t => decide (t.accountId = a.id)))
    linarith [this]
  have hequity : (((bsRows s cid eid asOf).filter
        (fun r => decide (r.accountType = AccountType.equity))).map (·.balance)).sum =
      -((((bsAccounts s cid eid).filter
        (fun a => decide (a.accountType = AccountType.equity))).map
        (fun a => (((bsTxns s cid eid asOf).filter
          (fun t => decide (t.accountId = a.id))).map dcAmount).sum)).sum) := by
    rw [hRows, List.map_map]
    rw [List.map_congr_left (g := fun a => -((((bsTxns s cid eid asOf).filter
      (fun t => decide (t.accountId = a.id))).map dcAmount).sum)) ?_, sum_map_negQ]
    intro a ha
    have hty : a.accountType = AccountType.equity := by
      have := List.of_mem_filter ha
      simpa using this
    show (bsRowOf (bsTxns s cid eid asOf) a).balance = _
    dsimp only [bsRowOf]
    rw [if_neg (by simp [hty])]
    have := debits_sub_credits ((bsTxns s cid eid asOf).filter
      (fun t => decide (t.accountId = a.id)))
    linarith [this]
  have hNI : netIncomeOf s cid eid asOf =
      -(((incomeAccountsOf s cid eid).map
        (fun a => (((incomeTxnsOf s cid eid asOf).filter
          (fun t => decide (t.accountId = a.id))).map dcAmount).sum)).sum) := by
    unfold netIncomeOf
    rw [List.map_congr_left (g := fun a => -((((incomeTxnsOf s cid eid asOf).filter
      (fun t => decide (t.accountId = a.id))).map dcAmount).sum)) ?_, sum_map_negQ]
    intro a ha
    dsimp only
    have := debits_sub_credits ((incomeTxnsOf s cid eid asOf).filter
      (fun t => decide (t.accountId = a.id)))
    by_cases hty : a.accountType = AccountType.revenue
    · rw [if_pos hty]
      linarith [this]
    · rw [if_neg hty]
      linarith [this]
  have hP1 := sum_per_account_to_covered (bsAccounts s cid eid)
    (bsTxns s cid eid asOf) hndA
  have hITall : ∀ t ∈ incomeTxnsOf s cid eid asOf,
      (incomeAccountsOf s cid eid).any (fun a => decide (a.id = t.accountId)) = true := by
    intro t ht
    unfold incomeTxnsOf at ht
    have := List.of_mem_filter ht
    simp only [Bool.and_eq_true] at this
    exact this.1.1.2
  have hP2 : ((incomeAccountsOf s cid eid).map
      (fun a => (((incomeTxnsOf s cid eid asOf).filter
        (fun t => decide (t.accountId = a.id))).map dcAmount).sum)).sum =
      ((incomeTxnsOf s cid eid asOf).map dcAmount).sum := by
    rw [sum_per_account_to_covered (incomeAccountsOf s cid eid)
      (incomeTxnsOf s cid eid asOf) hndI]
    rw [List.filter_eq_self.mpr hITall]
  have hIT : incomeTxnsOf s cid eid asOf = (bsTxns s cid eid asOf).filter
      (fun t => (incomeAccountsOf s cid eid).any (fun a => decide (a.id = t.accountId))) := by
    unfold incomeTxnsOf bsTxns
    rw [List.filter_filter]
    apply List.filter_congr
    intro t ht
    by_cases hce : (t.clientId = cid ∧ t.entityId = eid)
    · have hced : decide (t.clientId = cid ∧ t.entityId = eid) = true := by simp [hce]
      by_cases hany : (incomeAccountsOf s cid eid).any
          (fun a => decide (a.id = t.accountId)) = true
      · have hids : ∀ a' ∈ s.accounts, a'.id = t.accountId →
            (a'.accountType = AccountType.revenue ∨
              a'.accountType = AccountType.expense) := by
          rw [List.any_eq_true] at hany
          obtain ⟨a1, ha1, hdec⟩ := hany
          rw [decide_eq_true_eq] at hdec
          have h1 := (incomeAccountsOf_mem s cid eid a1).mp ha1
          intro a' ha' hid'
          have heq : a' = a1 :=
            nodup_id_unique s.accounts hnd a' a1 ha' h1.1 (by rw [hid', hdec])
          rw [heq]
          exact h1.2.2.2.2
        have hble := hytd t ht hce.1 hce.2 hids
        rw [hced, hany, hble]
        cases hb2 : DDate.ble t.date asOf <;> simp
      · have hanyf : (incomeAccountsOf s cid eid).any
            (fun a => decide (a.id = t.accountId)) = false := by
          rwa [Bool.not_eq_true] at hany
        rw [hced, hanyf]
        simp
    · have hced : decide (t.clientId = cid ∧ t.entityId = eid) = false := by simp [hce]
      rw [hced]
      simp
  have hcomp : ∀ t ∈ bsTxns s cid eid asOf,
      (incomeAccountsOf s cid eid).any (fun a => decide (a.id = t.accountId)) =
      !((bsAccounts s cid eid).any (fun a => decide (a.id = t.accountId))) := by
    intro t ht
    have htmem : t ∈ s.txns := List.mem_of_mem_filter ht
    have hcet : t.clientId = cid ∧ t.entityId = eid := by
      have := List.of_mem_filter ht
      simp only [Bool.and_eq_true, decide_eq_true_eq] at this
      exact this.1
    obtain ⟨a, hamem, haid, hacid, haeid, hact⟩ := hcov t htmem hcet.1 hcet.2
    have huniq : ∀ a', a' ∈ s.accounts → a'.id = t.accountId → a' = a :=
      fun a' ha' hid' =>
        nodup_id_unique s.accounts hnd a' a ha' hamem (by rw [hid', haid])
    have hALE : ∀ h : (a.accountType = AccountType.asset ∨
        a.accountType = AccountType.liability ∨ a.accountType = AccountType.equity),
        (incomeAccountsOf s cid eid).any (fun a2 => decide (a2.id = t.accountId)) = false ∧
        (bsAccounts s cid eid).any (fun a2 => decide (a2.id = t.accountId)) = true := by
      intro h
      constructor
      · rw [Bool.eq_false_iff]
        intro hc
        rw [List.any_eq_true] at hc
        obtain ⟨a2, ha2, hdec⟩ := hc
        rw [decide_eq_true_eq] at hdec
        have h2 := (incomeAccountsOf_mem s cid eid a2).mp ha2
        have heq : a2 = a := huniq a2 h2.1 hdec
        rw [heq] at h2
        rcases h2.2.2.2.2 with hr | hr <;> rcases h with hh | hh | hh <;>
          rw [hh] at hr <;> cases hr
      · rw [List.any_eq_true]
        refine ⟨a, (bsAccounts_mem s cid eid a).mpr ⟨hamem, hacid, haeid, hact, h⟩, ?_⟩
        simp [haid]
    have hRX : ∀ h : (a.accountType = AccountType.revenue ∨
        a.accountType = AccountType.expense),
        (incomeAccountsOf s cid eid).any (fun a2 => decide (a2.id = t.accountId)) = true ∧
        (bsAccounts s cid eid).any (fun a2 => decide (a2.id = t.accountId)) = false := by
      intro h
      constructor
      · rw [List.any_eq_true]
        refine ⟨a, (incomeAccountsOf_mem s cid eid a).mpr ⟨hamem, hacid, haeid, hact, h⟩, ?_⟩
        simp [haid]
      · rw [Bool.eq_false_iff]
        intro hc
        rw [List.any_eq_true] at hc
        obtain ⟨a2, ha2, hdec⟩ := hc
        rw [decide_eq_true_eq] at hdec
        have h2 := (bsAccounts_mem s cid eid a2).mp ha2
        have heq : a2 = a := huniq a2 h2.1 hdec
        rw [heq] at h2
        rcases h2.2.2.2.2 with hr | hr | hr <;> rcases h with hh | hh <;>
          rw [hh] at hr <;> cases hr
    cases hty : a.accountType
    · obtain ⟨e1, e2⟩ := hALE (Or.inl hty)
      rw [e1, e2]
      rfl
    · obtain ⟨e1, e2⟩ := hALE (Or.inr (Or.inl hty))
      rw [e1, e2]
      rfl
    · obtain ⟨e1, e2⟩ := hALE (Or.inr (Or.inr hty))
      rw [e1, e2]
      rfl
    · obtain ⟨e1, e2⟩ := hRX (Or.inl hty)
      rw [e1, e2]
      rfl
    · obtain ⟨e1, e2⟩ := hRX (Or.inr hty)
      rw [e1, e2]
      rfl
  have hsplit := sum_map_filter_add (bsTxns s cid eid asOf)
    (fun t => (bsAccounts s cid eid).any (fun a => decide (a.id = t.accountId))) dcAmount
  have hRXfilter : (bsTxns s cid eid asOf).filter
      (fun t => (incomeAccountsOf s cid eid).any (fun a => decide (a.id = t.accountId))) =
      (bsTxns s cid eid asOf).filter
      (fun t => !((bsAccounts s cid eid).any (fun a => decide (a.id = t.accountId)))) :=
    List.filter_congr hcomp
  have hJoin := sum_bucket_join (bsAccounts s cid eid)
    (fun a => (((bsTxns s cid eid asOf).filter
      (fun t => decide (t.accountId = a.id))).map dcAmount).sum)
    (fun a ha => ((bsAccounts_mem s cid eid a).mp ha).2.2.2.2)
  show (((bsRows s cid eid asOf).filter
      (fun r => decide (r.accountType = AccountType.asset))).map (·.balance)).sum =
    (((bsRows s cid eid asOf).filter
      (fun r => decide (r.accountType = AccountType.liability))).map (·.balance)).sum +
    (((bsRows s cid eid asOf).filter
      (fun r => decide (r.accountType = AccountType.equity))).map (·.balance)).sum +
    netIncomeOf s cid eid asOf
  rw [hasset, hliab, hequity, hNI, hP2, hIT, hRXfilter]
  linarith [hJoin, hP1, hsplit, hbal]

/-- Witness for C6: a single-year ledger (one balanced entry dated in the
as-of year) satisfies the identity. -/
theorem c6_identity_witness :
    (c10ledger.accounts.map (·.id)).Nodup ∧
    (∀ t ∈ c10ledger.txns, t.clientId = 1 → t.entityId = 1 →
      ∃ a ∈ c10ledger.accounts, a.id = t.accountId ∧ a.clientId = 1 ∧ a.entityId = 1 ∧
        a.isActive = true) ∧
    ((bsTxns c10ledger 1 1 ⟨2025, 11, 30⟩).map dcAmount).sum = 0 ∧
    (∀ t ∈ c10ledger.txns, t.clientId = 1 → t.entityId = 1 →
      (∀ a ∈ c10ledger.accounts, a.id = t.accountId →
        (a.accountType = AccountType.revenue ∨ a.accountType = AccountType.expense)) →
      DDate.ble (yearStartOf ⟨2025, 11, 30⟩) t.date = true) ∧
    (getBalanceSheet c10ledger 1 1 ⟨2025, 11, 30⟩).totals.assets =
      (getBalanceSheet c10ledger 1 1 ⟨2025, 11, 30⟩).totals.liabilitiesAndEquity := by
  have h1 : (c10ledger.accounts.map (·.id)).Nodup := by decide
  have h2 : ∀ t ∈ c10ledger.txns, t.clientId = 1 → t.entityId = 1 →
      ∃ a ∈ c10ledger.accounts, a.id = t.accountId ∧ a.clientId = 1 ∧ a.entityId = 1 ∧
        a.isActive = true := by decide
  have h3 : ((bsTxns c10ledger 1 1 ⟨2025, 11, 30⟩).map dcAmount).sum = 0 := by
    norm_num +decide [bsTxns, dcAmount, c10ledger, DDate.ble, List.filter_cons,
      List.filter_nil, List.map_cons, List.map_nil, List.sum_cons, List.sum_nil]
  have h4 : ∀ t ∈ c10ledger.txns, t.clientId = 1 → t.entityId = 1 →
      (∀ a ∈ c10ledger.accounts, a.id = t.accountId →
        (a.accountType = AccountType.revenue ∨ a.accountType = AccountType.expense)) →
      DDate.ble (yearStartOf ⟨2025, 11, 30⟩) t.date = true := by decide
  exact ⟨h1, h2, h3, h4,
    c6_balance_sheet_identity c10ledger 1 1 ⟨2025, 11, 30⟩ h1 h2 h3 h4⟩

end WilcoxGL
